import Mathlib

/-!
Verification development for the mcap2arrow schema/value pipeline.

The Rust sources are shallowly embedded: machine integers become `Nat`/`Int`
(with explicit two's-complement conversion where the code reinterprets bytes),
`f32`/`f64` payloads are carried as their raw little-endian bit patterns
(`Nat`), fallible code returns `Except`, and Rust panics are modelled as a
distinguished error constructor carrying the panic message.
-/

namespace M2A

/-- Set of quote character used inside Rust format strings. -/
def sq : String := String.singleton (Char.ofNat 39)

/-! ## mcap2arrow-core: `value.rs` -/

/-- Mirror of `Value` from `mcap2arrow-core/src/value.rs`.  Integer variants
carry `Int` (signed) or `Nat` (unsigned); `f32`/`f64` carry IEEE-754 bit
patterns as `Nat`, which is exactly what the byte-level decoders produce. -/
inductive Value where
  | null
  | bool (v : Bool)
  | i8 (v : Int)
  | i16 (v : Int)
  | i32 (v : Int)
  | i64 (v : Int)
  | u8 (v : Nat)
  | u16 (v : Nat)
  | u32 (v : Nat)
  | u64 (v : Nat)
  | f32 (bits : Nat)
  | f64 (bits : Nat)
  | string (s : String)
  | bytes (b : List Nat)
  | strct (children : List Value)
  | list (items : List Value)
  | array (items : List Value)
  | map (entries : List (Value × Value))

/-- Mirror of `ValueTypeError` (`mcap2arrow-core/src/error.rs`): the
`expected`/`actual` variant-name pair reported on a value/schema mismatch. -/
structure ValueTypeError where
  expected : String
  actual : String
deriving DecidableEq

/-- Mirror of `Value::variant_name`. -/
def Value.variant_name : Value → String
  | .null => "Null"
  | .bool _ => "Bool"
  | .i8 _ => "I8"
  | .i16 _ => "I16"
  | .i32 _ => "I32"
  | .i64 _ => "I64"
  | .u8 _ => "U8"
  | .u16 _ => "U16"
  | .u32 _ => "U32"
  | .u64 _ => "U64"
  | .f32 _ => "F32"
  | .f64 _ => "F64"
  | .string _ => "String"
  | .bytes _ => "Bytes"
  | .strct _ => "Struct"
  | .list _ => "List"
  | .array _ => "Array"
  | .map _ => "Map"

/-- Mirror of `Value::type_mismatch`. -/
def Value.type_mismatch (v : Value) (expected : String) : ValueTypeError :=
  ⟨expected, v.variant_name⟩

/-- Mirror of `Value::try_bool`. -/
def Value.try_bool : Value → Except ValueTypeError (Option Bool)
  | .bool v => .ok (some v)
  | .null => .ok none
  | v => .error (v.type_mismatch "Bool")

/-- Mirror of `Value::try_i8`. -/
def Value.try_i8 : Value → Except ValueTypeError (Option Int)
  | .i8 v => .ok (some v)
  | .null => .ok none
  | v => .error (v.type_mismatch "I8")

/-- Mirror of `Value::try_i16`. -/
def Value.try_i16 : Value → Except ValueTypeError (Option Int)
  | .i16 v => .ok (some v)
  | .null => .ok none
  | v => .error (v.type_mismatch "I16")

/-- Mirror of `Value::try_i32`. -/
def Value.try_i32 : Value → Except ValueTypeError (Option Int)
  | .i32 v => .ok (some v)
  | .null => .ok none
  | v => .error (v.type_mismatch "I32")

/-- Mirror of `Value::try_i64`. -/
def Value.try_i64 : Value → Except ValueTypeError (Option Int)
  | .i64 v => .ok (some v)
  | .null => .ok none
  | v => .error (v.type_mismatch "I64")

/-- Mirror of `Value::try_u8`. -/
def Value.try_u8 : Value → Except ValueTypeError (Option Nat)
  | .u8 v => .ok (some v)
  | .null => .ok none
  | v => .error (v.type_mismatch "U8")

/-- Mirror of `Value::try_u16`. -/
def Value.try_u16 : Value → Except ValueTypeError (Option Nat)
  | .u16 v => .ok (some v)
  | .null => .ok none
  | v => .error (v.type_mismatch "U16")

/-- Mirror of `Value::try_u32`. -/
def Value.try_u32 : Value → Except ValueTypeError (Option Nat)
  | .u32 v => .ok (some v)
  | .null => .ok none
  | v => .error (v.type_mismatch "U32")

/-- Mirror of `Value::try_u64`. -/
def Value.try_u64 : Value → Except ValueTypeError (Option Nat)
  | .u64 v => .ok (some v)
  | .null => .ok none
  | v => .error (v.type_mismatch "U64")

/-- Mirror of `Value::try_f32` (bit-pattern payload). -/
def Value.try_f32 : Value → Except ValueTypeError (Option Nat)
  | .f32 v => .ok (some v)
  | .null => .ok none
  | v => .error (v.type_mismatch "F32")

/-- Mirror of `Value::try_f64` (bit-pattern payload). -/
def Value.try_f64 : Value → Except ValueTypeError (Option Nat)
  | .f64 v => .ok (some v)
  | .null => .ok none
  | v => .error (v.type_mismatch "F64")

/-- Mirror of `Value::try_str`. -/
def Value.try_str : Value → Except ValueTypeError (Option String)
  | .string v => .ok (some v)
  | .null => .ok none
  | v => .error (v.type_mismatch "String")

/-- Mirror of `Value::try_bytes`. -/
def Value.try_bytes : Value → Except ValueTypeError (Option (List Nat))
  | .bytes v => .ok (some v)
  | .null => .ok none
  | v => .error (v.type_mismatch "Bytes")

/-! ## mcap2arrow-ros2-common: AST and type resolver -/

/-- Mirror of `PrimitiveType` from `mcap2arrow-ros2-common/src/ast.rs`. -/
inductive PrimitiveType where
  | bool | i8 | i16 | i32 | i64 | u8 | u16 | u32 | u64 | f32 | f64
  | string | wstring | octet
deriving DecidableEq

/-- Mirror of `TypeExpr` from `ast.rs`. -/
inductive TypeExpr where
  | primitive (p : PrimitiveType)
  | scoped (segments : List String)
  | sequence (elem : TypeExpr) (max_len : Option Nat)
  | boundedString (n : Nat)
  | boundedWString (n : Nat)

/-- Mirror of `FieldDef` from `ast.rs` (AST field, before resolution). -/
structure AstFieldDef where
  name : String
  ty : TypeExpr
  fixed_len : Option Nat

/-- Mirror of `StructDef` from `ast.rs` (constants are irrelevant to
resolution and decoding and are dropped by `resolve_struct`). -/
structure StructDef where
  full_name : List String
  fields : List AstFieldDef

/-- Mirror of `EnumDef` from `ast.rs`. -/
structure EnumDef where
  full_name : List String
  variants : List String

/-- Mirror of `ResolvedType` from `type_resolver.rs`. -/
inductive ResolvedType where
  | primitive (p : PrimitiveType)
  | strct (key : List String)
  | enum (key : List String)
  | sequence (elem : ResolvedType) (max_len : Option Nat)
  | boundedString (n : Nat)
  | boundedWString (n : Nat)

/-- Mirror of `ResolvedField` from `type_resolver.rs`. -/
structure ResolvedField where
  name : String
  ty : ResolvedType
  fixed_len : Option Nat

/-- Mirror of `ResolvedStruct` from `type_resolver.rs`. -/
structure ResolvedStruct where
  fields : List ResolvedField

/-- Mirror of `ResolvedSchema` from `type_resolver.rs`.  The Rust `HashMap`s
are embedded as association lists; `find_by_suffix` iterates the keys in
list order, and all map lookups are key-based, so any iteration order a
`HashMap` could present is representable by choosing the list order. -/
structure ResolvedSchema where
  root : List String
  structs : List (List String × ResolvedStruct)
  enums : List (List String × List String)

/-- Association-list lookup standing in for `HashMap::get`. -/
def alGet {α : Type} (m : List (List String × α)) (k : List String) : Option α :=
  (m.find? (fun p => p.1 == k)).map (·.2)

/-- Association-list membership standing in for `HashMap::contains_key`. -/
def alContains {α : Type} (m : List (List String × α)) (k : List String) : Bool :=
  (m.find? (fun p => p.1 == k)).isSome

/-- Rust `Vec::join("::")` on name segments. -/
def joinColons (segs : List String) : String :=
  String.intercalate "::" segs

/-- Mirror of the `find_by_suffix` loop from `type_resolver.rs`: scan the
keys in order; remember the first key ending in `wanted`; on meeting a
second such key return `none` (ambiguous); otherwise return the remembered
key, if any. -/
def find_by_suffix_loop (keys : List (List String)) (wanted : List String)
    (found : Option (List String)) : Option (List String) :=
  match keys with
  | [] => found
  | key :: rest =>
    if key.length < wanted.length then
      find_by_suffix_loop rest wanted found
    else if key.drop (key.length - wanted.length) == wanted then
      match found with
      | some _ => none
      | none => find_by_suffix_loop rest wanted (some key)
    else
      find_by_suffix_loop rest wanted found

/-- Mirror of `find_by_suffix` from `type_resolver.rs`. -/
def find_by_suffix {α : Type} (m : List (List String × α)) (wanted : List String) :
    Option (List String) :=
  find_by_suffix_loop (m.map (·.1)) wanted none

/-- The plain unresolved-reference error message of `resolve_type_expr`
(`"unresolved type '{name}' in '{current_struct}'"`). -/
def unresolvedMsg (name current_struct : List String) : String :=
  "unresolved type " ++ sq ++ joinColons name ++ sq ++ " in " ++ sq ++
    joinColons current_struct ++ sq

/-- Local qualification of a scoped reference (the `candidate` computation in
`resolve_type_expr`): a single-segment name is prepended with the enclosing
module (the struct name minus its last segment); multi-segment names are
used as-is. -/
def localCandidate (name : List String) (current_struct : List String) : List String :=
  if name.length == 1 then
    current_struct.take (current_struct.length - 1) ++ name
  else
    name

/-- Mirror of `resolve_type_expr` from `type_resolver.rs`. -/
def resolve_type_expr (expr : TypeExpr) (current_struct : List String)
    (all_structs : List (List String × StructDef))
    (all_enums : List (List String × EnumDef)) : Except String ResolvedType :=
  match expr with
  | .primitive p => .ok (.primitive p)
  | .boundedString n => .ok (.boundedString n)
  | .boundedWString n => .ok (.boundedWString n)
  | .sequence elem max_len => do
    let e ← resolve_type_expr elem current_struct all_structs all_enums
    .ok (.sequence e max_len)
  | .scoped name =>
    let candidate := localCandidate name current_struct
    if alContains all_structs candidate then
      .ok (.strct candidate)
    else if alContains all_enums candidate then
      .ok (.enum candidate)
    else
      match find_by_suffix all_structs candidate with
      | some found => .ok (.strct found)
      | none =>
        match find_by_suffix all_enums candidate with
        | some found => .ok (.enum found)
        | none => .error (unresolvedMsg name current_struct)

/-! ## mcap2arrow-ros2-common: CDR decoder (`cdr.rs`) -/

/-- Little-endian byte-list to unsigned integer. -/
def leNat : List Nat → Nat
  | [] => 0
  | b :: rest => b + 256 * leNat rest

/-- Two's-complement reinterpretation of a `w`-bit unsigned value, as done by
the signed `try_get_*_le` reads. -/
def toSigned (w : Nat) (v : Nat) : Int :=
  if v < 2 ^ (w - 1) then (v : Int) else (v : Int) - 2 ^ w

/-- Decoder state for `cdr.rs`.  `buf.remaining()` is
`data.length - pos`, and since `initial_len` is the full input length,
`current_offset()` is exactly `pos`. -/
structure DecState where
  data : List Nat
  pos : Nat
  align_base : Nat

/-- Mirror of `Bytes::remaining`. -/
def DecState.remaining (st : DecState) : Nat := st.data.length - st.pos

/-- Mirror of `Decoder::current_offset` (initial length minus remaining). -/
def DecState.current_offset (st : DecState) : Nat :=
  st.data.length - st.remaining

/-- The next `n` bytes of the stream. -/
def DecState.peek (st : DecState) (n : Nat) : List Nat :=
  (st.data.drop st.pos).take n

/-- Unaligned little-endian read of `n` bytes (the `try_get_*_le` family);
fails when fewer than `n` bytes remain. -/
def readLE (st : DecState) (n : Nat) (path : String) :
    Except String (Nat × DecState) :=
  if st.remaining < n then
    .error ("unexpected EOF at " ++ path)
  else
    .ok (leNat (st.peek n), { st with pos := st.pos + n })

/-- Lower-case hex rendering of one byte (for the `{:02x}` format). -/
def hexDigit (n : Nat) : String :=
  (["0","1","2","3","4","5","6","7","8","9","a","b","c","d","e","f"].getD n "?")

/-- Two-digit lower-case hex (for `format!("{:02x}")`). -/
def hex2 (b : Nat) : String := hexDigit (b / 16 % 16) ++ hexDigit (b % 16)

/-- Mirror of `Decoder::read_encapsulation`: consume the 4-byte header,
require byte 1 (the low-endian second byte, bits 8..16 of the little-endian
`u32`) to be `0x01`, and set the alignment base to 4. -/
def read_encapsulation (st : DecState) : Except String DecState :=
  if st.remaining < 4 then
    .error "incomplete encapsulation header"
  else
    let header := leNat (st.peek 4)
    let endianness := header / 2 ^ 8 % 2 ^ 8
    if endianness != 1 then
      .error ("unsupported CDR endianness: 0x" ++ hex2 (endianness % 256))
    else
      .ok { st with pos := st.pos + 4, align_base := 4 }

/-- Mirror of `primitive_align_size`. -/
def primitive_align_size : PrimitiveType → Nat
  | .i16 | .u16 => 2
  | .i32 | .u32 | .f32 => 4
  | .i64 | .u64 | .f64 => 8
  | _ => 1

/-- Mirror of `Decoder::align`: skip
`(n - ((current_offset - align_base) % n)) % n` padding bytes. -/
def align (st : DecState) (n : Nat) : Except String DecState :=
  let relative_offset := st.current_offset - st.align_base
  let pad := (n - relative_offset % n) % n
  if st.remaining < pad then
    .error "buffer underflow while aligning"
  else
    .ok { st with pos := st.pos + pad }

/-- Mirror of `Decoder::read_bytes`. -/
def read_bytes (st : DecState) (n : Nat) (path : String) :
    Except String (List Nat × DecState) :=
  if st.remaining < n then
    .error ("unexpected EOF at " ++ path)
  else
    .ok (st.peek n, { st with pos := st.pos + n })

/-- UTF-8 validation/decoding of a byte list, mirroring Rust
`String::from_utf8` (strict: rejects overlong forms, surrogates and
out-of-range code points). -/
def utf8Decode : List Nat → Option String
  | [] => some ""
  | b0 :: rest =>
    if b0 < 0x80 then
      (utf8Decode rest).map (fun s => String.singleton (Char.ofNat b0) ++ s)
    else if 0xC2 ≤ b0 ∧ b0 ≤ 0xDF then
      match rest with
      | b1 :: rest1 =>
        if 0x80 ≤ b1 ∧ b1 ≤ 0xBF then
          (utf8Decode rest1).map (fun s =>
            String.singleton (Char.ofNat ((b0 - 0xC0) * 64 + (b1 - 0x80))) ++ s)
        else none
      | _ => none
    else if 0xE0 ≤ b0 ∧ b0 ≤ 0xEF then
      match rest with
      | b1 :: b2 :: rest2 =>
        let lo1 := if b0 == 0xE0 then 0xA0 else 0x80
        let hi1 := if b0 == 0xED then 0x9F else 0xBF
        if (lo1 ≤ b1 ∧ b1 ≤ hi1) ∧ (0x80 ≤ b2 ∧ b2 ≤ 0xBF) then
          (utf8Decode rest2).map (fun s =>
            String.singleton
              (Char.ofNat ((b0 - 0xE0) * 4096 + (b1 - 0x80) * 64 + (b2 - 0x80))) ++ s)
        else none
      | _ => none
    else if 0xF0 ≤ b0 ∧ b0 ≤ 0xF4 then
      match rest with
      | b1 :: b2 :: b3 :: rest3 =>
        let lo1 := if b0 == 0xF0 then 0x90 else 0x80
        let hi1 := if b0 == 0xF4 then 0x8F else 0xBF
        if (lo1 ≤ b1 ∧ b1 ≤ hi1) ∧ (0x80 ≤ b2 ∧ b2 ≤ 0xBF) ∧
            (0x80 ≤ b3 ∧ b3 ≤ 0xBF) then
          (utf8Decode rest3).map (fun s =>
            String.singleton
              (Char.ofNat ((b0 - 0xF0) * 262144 + (b1 - 0x80) * 4096 +
                (b2 - 0x80) * 64 + (b3 - 0x80))) ++ s)
        else none
      | _ => none
    else none
termination_by l => l.length
decreasing_by all_goals simp_arith [*]

/-- Mirror of `Decoder::decode_string`: 4-align, read the `u32` length; a
zero length yields the empty string immediately; otherwise the `len` stored
bytes must end in a NUL, which is stripped before UTF-8 decoding. -/
def decode_string (st : DecState) (path : String) :
    Except String (String × DecState) := do
  let st ← align st 4
  let (len, st) ← readLE st 4 path
  if len == 0 then
    .ok ("", st)
  else do
    let (bs, st) ← read_bytes st len path
    if bs.getLast? != some 0 then
      .error ("string missing null terminator at " ++ path)
    else
      match utf8Decode (bs.take (len - 1)) with
      | some s => .ok (s, st)
      | none => .error ("invalid UTF-8 at " ++ path)

/-- Mirror of `Decoder::decode_primitive`: align to the primitive's size,
then read its bytes (little-endian).  `Bool` is any non-zero byte; signed
integers reinterpret the bytes two's-complement; floats keep raw bits. -/
def decode_primitive (st : DecState) (p : PrimitiveType) (path : String) :
    Except String (Value × DecState) := do
  let st ← align st (primitive_align_size p)
  match p with
  | .bool => do
    let (v, st) ← readLE st 1 path
    .ok (.bool (v != 0), st)
  | .i8 => do
    let (v, st) ← readLE st 1 path
    .ok (.i8 (toSigned 8 v), st)
  | .i16 => do
    let (v, st) ← readLE st 2 path
    .ok (.i16 (toSigned 16 v), st)
  | .i32 => do
    let (v, st) ← readLE st 4 path
    .ok (.i32 (toSigned 32 v), st)
  | .i64 => do
    let (v, st) ← readLE st 8 path
    .ok (.i64 (toSigned 64 v), st)
  | .u8 | .octet => do
    let (v, st) ← readLE st 1 path
    .ok (.u8 v, st)
  | .u16 => do
    let (v, st) ← readLE st 2 path
    .ok (.u16 v, st)
  | .u32 => do
    let (v, st) ← readLE st 4 path
    .ok (.u32 v, st)
  | .u64 => do
    let (v, st) ← readLE st 8 path
    .ok (.u64 v, st)
  | .f32 => do
    let (v, st) ← readLE st 4 path
    .ok (.f32 v, st)
  | .f64 => do
    let (v, st) ← readLE st 8 path
    .ok (.f64 v, st)
  | .string => do
    let (s, st) ← decode_string st path
    .ok (.string s, st)
  | .wstring => .error ("wstring not supported at " ++ path)

/-- Rust `format!("{path}[{i}]")`. -/
def idxPath (path : String) (i : Nat) : String :=
  path ++ "[" ++ toString i ++ "]"

mutual

/-- Mirror of `Decoder::decode_struct`.  `fuel` bounds the total recursion
depth (the Rust recursion is bounded only by the call stack and diverges on
a cyclic schema; every theorem below supplies ample fuel for its finite
schema and input, and the result is fuel-independent once large enough). -/
def decode_struct (fuel : Nat) (schema : ResolvedSchema) (struct_name : List String)
    (path : String) (st : DecState) : Except String (Value × DecState) :=
  match fuel with
  | 0 => .error "recursion limit"
  | fuel + 1 =>
    match alGet schema.structs struct_name with
    | none => .error ("unknown struct: " ++ joinColons struct_name)
    | some s => do
      let (vals, st) ← decode_fields fuel schema s.fields path st
      .ok (.strct vals, st)

/-- Field-list loop of `decode_struct`. -/
def decode_fields (fuel : Nat) (schema : ResolvedSchema) (fields : List ResolvedField)
    (path : String) (st : DecState) : Except String (List Value × DecState) :=
  match fuel with
  | 0 => .error "recursion limit"
  | fuel + 1 =>
    match fields with
    | [] => .ok ([], st)
    | f :: rest => do
      let (v, st) ← decode_field fuel schema f (path ++ "." ++ f.name) st
      let (vs, st) ← decode_fields fuel schema rest path st
      .ok (v :: vs, st)

/-- Mirror of `Decoder::decode_field`: a `fixed_len = Some n` field decodes
`n` elements of its type into `Value::Array` (no length prefix read). -/
def decode_field (fuel : Nat) (schema : ResolvedSchema) (field : ResolvedField)
    (path : String) (st : DecState) : Except String (Value × DecState) :=
  match fuel with
  | 0 => .error "recursion limit"
  | fuel + 1 =>
    match field.fixed_len with
    | some n => do
      let (items, st) ← decode_elems fuel schema field.ty path 0 n st
      .ok (.array items, st)
    | none => decode_type fuel schema field.ty path st

/-- Element loop shared by fixed-length arrays and sequences: decodes
`count` elements at paths `path[i]`, `i = start, start+1, …`. -/
def decode_elems (fuel : Nat) (schema : ResolvedSchema) (ty : ResolvedType)
    (path : String) (start count : Nat) (st : DecState) :
    Except String (List Value × DecState) :=
  match fuel with
  | 0 => .error "recursion limit"
  | fuel + 1 =>
    match count with
    | 0 => .ok ([], st)
    | count + 1 => do
      let (v, st) ← decode_type fuel schema ty (idxPath path start) st
      let (vs, st) ← decode_elems fuel schema ty path (start + 1) count st
      .ok (v :: vs, st)

/-- Mirror of `Decoder::decode_type`. -/
def decode_type (fuel : Nat) (schema : ResolvedSchema) (ty : ResolvedType)
    (path : String) (st : DecState) : Except String (Value × DecState) :=
  match fuel with
  | 0 => .error "recursion limit"
  | fuel + 1 =>
    match ty with
    | .primitive p => decode_primitive st p path
    | .boundedString max => do
      let (s, st) ← decode_string st path
      if s.length > max then
        .error ("bounded string overflow at " ++ path ++ ": " ++ toString s.length ++
          " > " ++ toString max)
      else
        .ok (.string s, st)
    | .boundedWString _ => .error ("wstring not supported at " ++ path)
    | .strct name => decode_struct fuel schema name path st
    | .enum name => do
      let st ← align st 4
      let (raw, st) ← readLE st 4 path
      let s := match alGet schema.enums name with
        | some vars => if h : raw < vars.length then vars.get ⟨raw, h⟩ else toString raw
        | none => toString raw
      .ok (.string s, st)
    | .sequence elem max_len => do
      let st ← align st 4
      let (len, st) ← readLE st 4 path
      match max_len with
      | some max =>
        if len > max then
          .error ("sequence bound overflow at " ++ path ++ ": " ++ toString len ++
            " > " ++ toString max)
        else do
          let (out, st) ← decode_elems fuel schema elem path 0 len st
          .ok (.list out, st)
      | none => do
        let (out, st) ← decode_elems fuel schema elem path 0 len st
        .ok (.list out, st)

end

/-- Mirror of `decode_cdr_to_value` (modulo the `DecoderError::MessageDecode`
wrapper, which only attaches the schema name): read the encapsulation
header, then decode the root struct at path `root.join(".")`. -/
def decode_cdr_to_value (fuel : Nat) (schema : ResolvedSchema) (data : List Nat) :
    Except String Value := do
  let st ← read_encapsulation { data := data, pos := 0, align_base := 0 }
  let (v, _) ← decode_struct fuel schema schema.root
    (String.intercalate "." schema.root) st
  .ok v

/-! ## Arrow data model

The subset of `arrow::datatypes::DataType` that this project can produce
(`schema_convert.rs` emits exactly these, plus the nanosecond timestamp used
for the two prepended columns). -/

mutual

/-- Arrow `DataType` (project subset; `timestamp` is
`Timestamp(TimeUnit::Nanosecond, tz)`). -/
inductive ADT where
  | null
  | boolean
  | int8
  | int16
  | int32
  | int64
  | uint8
  | uint16
  | uint32
  | uint64
  | float32
  | float64
  | utf8
  | binary
  | timestamp (tz : Option String)
  | list (item : AField)
  | fixedSizeList (item : AField) (size : Nat)
  | strct (fields : List AField)
  | map (entry : AField) (keys_sorted : Bool)

/-- Arrow `Field`: name, data type, nullability. -/
inductive AField where
  | mk (name : String) (dt : ADT) (nullable : Bool)

end

/-- Field name accessor. -/
def AField.name : AField → String
  | .mk n _ _ => n

/-- Field data type accessor. -/
def AField.dt : AField → ADT
  | .mk _ d _ => d

/-- Field nullability accessor (`Field::is_nullable`). -/
def AField.nullable : AField → Bool
  | .mk _ _ nb => nb

/-- An Arrow `Schema` is its ordered field list. -/
def ASchema := List AField

/-- Mirror of `ScalarValue` from `arrow_convert/scalar.rs`. -/
inductive ScalarValue where
  | null
  | boolean (v : Option Bool)
  | int8 (v : Option Int)
  | int16 (v : Option Int)
  | int32 (v : Option Int)
  | int64 (v : Option Int)
  | uint8 (v : Option Nat)
  | uint16 (v : Option Nat)
  | uint32 (v : Option Nat)
  | uint64 (v : Option Nat)
  | float32 (v : Option Nat)
  | float64 (v : Option Nat)
  | utf8 (v : Option String)
  | binary (v : Option (List Nat))
  | timestampNanosecond (v : Option Int)

/-- Mirror of `scalar_value_for_datatype` (`arrow_convert/scalar.rs`),
reconciled with the typed-error channel: the distributed `scalar.rs` calls
`Value::as_*` accessors that are not present in `value.rs`, while
`append.rs` propagates a `ValueTypeError` from this function with `?`; the
accessors are therefore embedded as the `Value::try_*` accessors of
`value.rs`, which implement exactly the mismatch contract the error channel
requires. -/
def scalar_value_for_datatype (dt : ADT) (value : Value) :
    Except ValueTypeError (Option ScalarValue) :=
  match dt with
  | .null => .ok (some .null)
  | .boolean => do .ok (some (.boolean (← value.try_bool)))
  | .int8 => do .ok (some (.int8 (← value.try_i8)))
  | .int16 => do .ok (some (.int16 (← value.try_i16)))
  | .int32 => do .ok (some (.int32 (← value.try_i32)))
  | .int64 => do .ok (some (.int64 (← value.try_i64)))
  | .uint8 => do .ok (some (.uint8 (← value.try_u8)))
  | .uint16 => do .ok (some (.uint16 (← value.try_u16)))
  | .uint32 => do .ok (some (.uint32 (← value.try_u32)))
  | .uint64 => do .ok (some (.uint64 (← value.try_u64)))
  | .float32 => do .ok (some (.float32 (← value.try_f32)))
  | .float64 => do .ok (some (.float64 (← value.try_f64)))
  | .utf8 => do .ok (some (.utf8 (← value.try_str)))
  | .binary => do .ok (some (.binary (← value.try_bytes)))
  | .timestamp _ => do .ok (some (.timestampNanosecond (← value.try_i64)))
  | _ => .ok none

/-- Arrow array (also used as the builder state: an arrow builder holds the
same cells/offsets/validity content it will freeze into the array, so
`ArrayBuilder::finish` is the identity here).  `listA`/`mapA` offsets follow
the arrow layout: they include the leading `0` and have `rows + 1`
entries. -/
inductive Arr where
  | nullA (count : Nat)
  | boolA (cells : List (Option Bool))
  | int8A (cells : List (Option Int))
  | int16A (cells : List (Option Int))
  | int32A (cells : List (Option Int))
  | int64A (cells : List (Option Int))
  | uint8A (cells : List (Option Nat))
  | uint16A (cells : List (Option Nat))
  | uint32A (cells : List (Option Nat))
  | uint64A (cells : List (Option Nat))
  | float32A (cells : List (Option Nat))
  | float64A (cells : List (Option Nat))
  | stringA (cells : List (Option String))
  | binaryA (cells : List (Option (List Nat)))
  | tsA (cells : List (Option Int))
  | listA (values : Arr) (offsets : List Nat) (validity : List Bool)
  | fslA (values : Arr) (size : Nat) (validity : List Bool)
  | structA (fields : List AField) (children : List Arr) (validity : List Bool)
  | mapA (keys : Arr) (vals : Arr) (offsets : List Nat) (validity : List Bool)

/-- `Array::len` / rows appended so far to a builder. -/
def Arr.len : Arr → Nat
  | .nullA c => c
  | .boolA cs => cs.length
  | .int8A cs => cs.length
  | .int16A cs => cs.length
  | .int32A cs => cs.length
  | .int64A cs => cs.length
  | .uint8A cs => cs.length
  | .uint16A cs => cs.length
  | .uint32A cs => cs.length
  | .uint64A cs => cs.length
  | .float32A cs => cs.length
  | .float64A cs => cs.length
  | .stringA cs => cs.length
  | .binaryA cs => cs.length
  | .tsA cs => cs.length
  | .listA _ offsets _ => offsets.length - 1
  | .fslA _ _ validity => validity.length
  | .structA _ _ validity => validity.length
  | .mapA _ _ offsets _ => offsets.length - 1

/-- Errors of the row appender: a typed `ValueTypeError`, or a Rust panic
carrying its message. -/
inductive AppendErr where
  | vt (e : ValueTypeError)
  | panicE (msg : String)
deriving DecidableEq

mutual

/-- Mirror of `make_builder` (`arrow_convert/builder.rs`); the capacity
argument of the Rust version only pre-allocates and is dropped.  The panics
of the Rust function surface as `AppendErr.panicE`. -/
def make_builder (dt : ADT) : Except AppendErr Arr :=
  match dt with
  | .null => .ok (.nullA 0)
  | .boolean => .ok (.boolA [])
  | .int8 => .ok (.int8A [])
  | .int16 => .ok (.int16A [])
  | .int32 => .ok (.int32A [])
  | .int64 => .ok (.int64A [])
  | .uint8 => .ok (.uint8A [])
  | .uint16 => .ok (.uint16A [])
  | .uint32 => .ok (.uint32A [])
  | .uint64 => .ok (.uint64A [])
  | .float32 => .ok (.float32A [])
  | .float64 => .ok (.float64A [])
  | .utf8 => .ok (.stringA [])
  | .binary => .ok (.binaryA [])
  | .timestamp _ => .ok (.tsA [])
  | .list (.mk _ idt _) => do
    let child ← make_builder idt
    .ok (.listA child [0] [])
  | .fixedSizeList (.mk _ idt _) size => do
    let child ← make_builder idt
    .ok (.fslA child size [])
  | .strct fields => do
    let children ← makeChildBuilders fields
    .ok (.structA fields children [])
  | .map (.mk _ (.strct [.mk _ kdt _, .mk _ vdt _]) _) _ => do
    let kb ← make_builder kdt
    let vb ← make_builder vdt
    .ok (.mapA kb vb [0] [])
  | .map _ _ => .error (.panicE "Map entry field must be Struct with 2 fields")

/-- Child-builder loop of `make_builder` for struct fields. -/
def makeChildBuilders (fields : List AField) : Except AppendErr (List Arr) :=
  match fields with
  | [] => .ok []
  | .mk _ fdt _ :: rest => do
    let b ← make_builder fdt
    let bs ← makeChildBuilders rest
    .ok (b :: bs)

end

/-- Mirror of `append_scalar_dyn` (`arrow_convert/append.rs`): the
`cast_builder!` downcast panics when the builder kind does not match the
scalar kind, and otherwise `append_option` pushes the cell. -/
def append_scalar_dyn (b : Arr) (s : ScalarValue) : Except AppendErr Arr :=
  match b, s with
  | .nullA c, .null => .ok (.nullA (c + 1))
  | .boolA cs, .boolean v => .ok (.boolA (cs ++ [v]))
  | .int8A cs, .int8 v => .ok (.int8A (cs ++ [v]))
  | .int16A cs, .int16 v => .ok (.int16A (cs ++ [v]))
  | .int32A cs, .int32 v => .ok (.int32A (cs ++ [v]))
  | .int64A cs, .int64 v => .ok (.int64A (cs ++ [v]))
  | .uint8A cs, .uint8 v => .ok (.uint8A (cs ++ [v]))
  | .uint16A cs, .uint16 v => .ok (.uint16A (cs ++ [v]))
  | .uint32A cs, .uint32 v => .ok (.uint32A (cs ++ [v]))
  | .uint64A cs, .uint64 v => .ok (.uint64A (cs ++ [v]))
  | .float32A cs, .float32 v => .ok (.float32A (cs ++ [v]))
  | .float64A cs, .float64 v => .ok (.float64A (cs ++ [v]))
  | .stringA cs, .utf8 v => .ok (.stringA (cs ++ [v]))
  | .binaryA cs, .binary v => .ok (.binaryA (cs ++ [v]))
  | .tsA cs, .timestampNanosecond v => .ok (.tsA (cs ++ [v]))
  | _, _ => .error (.panicE "expected builder type")

/-- Lift a `ValueTypeError` into the appender error channel ( `?` through
`From<ValueTypeError>` in the Rust code). -/
def liftVT {α : Type} : Except ValueTypeError α → Except AppendErr α
  | .ok a => .ok a
  | .error e => .error (.vt e)

mutual

/-- Mirror of `append_value_to_builder` (`arrow_convert/append.rs`): try the
scalar path first; then dispatch `List` / `FixedSizeList` / `Struct` /
`Map`.  The builder-shape mismatch panics of `cast_builder!` and the
`unsupported DataType` panic become `AppendErr.panicE`. -/
def append_value_to_builder (b : Arr) (dt : ADT) (value : Value) :
    Except AppendErr Arr := do
  match ← liftVT (scalar_value_for_datatype dt value) with
  | some s => append_scalar_dyn b s
  | none =>
    match dt, b with
    | .list (.mk _ edt _), .listA child offsets validity =>
      match value with
      | .list items => do
        let child ← append_items child edt items
        .ok (.listA child (offsets ++ [child.len]) (validity ++ [true]))
      | .null =>
        .ok (.listA child (offsets ++ [child.len]) (validity ++ [false]))
      | v => .error (.vt (v.type_mismatch "List"))
    | .fixedSizeList (.mk _ edt _) size, .fslA child bsize validity =>
      match value with
      | .array items =>
        if items.length != size then
          .error (.vt ⟨"FixedSizeList(length=" ++ toString size ++ ")",
            "Array(length=" ++ toString items.length ++ ")"⟩)
        else do
          let child ← append_items child edt items
          .ok (.fslA child bsize (validity ++ [true]))
      | .null => do
        let child ← append_items child edt (List.replicate size .null)
        .ok (.fslA child bsize (validity ++ [false]))
      | v => .error (.vt (v.type_mismatch "Array"))
    | .strct fields, .structA bfields children validity =>
      match value with
      | .strct cs => do
        let children ← append_struct_fields children fields 0 cs
        .ok (.structA bfields children (validity ++ [true]))
      | .null => do
        let children ← append_struct_fields children fields 0 []
        .ok (.structA bfields children (validity ++ [false]))
      | v => .error (.vt (v.type_mismatch "Struct"))
    | .map (.mk _ (.strct [.mk _ kdt _, .mk _ vdt _]) _) _, .mapA kb vb offsets validity =>
      match value with
      | .map entries => do
        let (kb, vb) ← append_map_entries kb vb kdt vdt entries
        .ok (.mapA kb vb (offsets ++ [kb.len]) (validity ++ [true]))
      | .null =>
        .ok (.mapA kb vb (offsets ++ [kb.len]) (validity ++ [false]))
      | v => .error (.vt (v.type_mismatch "Map"))
    | .map _ _, .mapA _ _ _ _ =>
      .error (.panicE "Map entry field must be Struct with 2 fields")
    | .list _, _ | .fixedSizeList _ _, _ | .strct _, _ | .map _ _, _ =>
      .error (.panicE "expected builder type")
    | _, _ => .error (.panicE "unsupported DataType in append_value_to_builder")
termination_by (sizeOf dt, 0)

/-- Element loop of `append_list_elements`, also reused for the `size` null
appends of a null fixed-size-list row (the Rust `for` loops). -/
def append_items (child : Arr) (edt : ADT) (items : List Value) :
    Except AppendErr Arr :=
  match items with
  | [] => .ok child
  | item :: rest => do
    let child ← append_value_to_builder child edt item
    append_items child edt rest
termination_by (sizeOf edt, items.length + 1)

/-- Field loop of the `Struct` arm: walk the expected fields with the
parallel child builders; the `i`-th child value is `children.get(i)`
defaulting to `Value::Null` (surplus values are never inspected). -/
def append_struct_fields (children : List Arr) (fields : List AField) (i : Nat)
    (cs : List Value) : Except AppendErr (List Arr) :=
  match fields, children with
  | [], _ => .ok children
  | .mk _ fdt _ :: frest, b :: brest => do
    let b ← append_value_to_builder b fdt (cs.getD i .null)
    let bs ← append_struct_fields brest frest (i + 1) cs
    .ok (b :: bs)
  | _ :: _, [] => .error (.panicE "index out of bounds")
termination_by (sizeOf fields, 0)

/-- Mirror of `append_map_entries`: each `(key, value)` pair goes through
the map's two sub-builders under the entry struct's field types. -/
def append_map_entries (kb vb : Arr) (kdt vdt : ADT)
    (entries : List (Value × Value)) : Except AppendErr (Arr × Arr) :=
  match entries with
  | [] => .ok (kb, vb)
  | (k, v) :: rest => do
    let kb ← append_value_to_builder kb kdt k
    let vb ← append_value_to_builder vb vdt v
    append_map_entries kb vb kdt vdt rest
termination_by (sizeOf kdt + sizeOf vdt + 1, entries.length)

end

/-! ## mcap2arrow-arrow: `schema_convert.rs` and `arrow_convert/mod.rs` -/

/-- Mirror of `DecodedMessage` (`mcap2arrow-core`): times are `u64`
nanoseconds, embedded as `Nat`. -/
structure DecodedMessage where
  log_time : Nat
  publish_time : Nat
  value : Value

/-- Mirror of the crate constant `TIMESTAMP_TZ` (`lib.rs`). -/
def TIMESTAMP_TZ : String := "+00:00"

/-- Mirror of `with_timestamp_fields` (`schema_convert.rs`): prepend the
non-nullable `@log_time` / `@publish_time` nanosecond-timestamp columns. -/
def with_timestamp_fields (schema : List AField) : List AField :=
  .mk "@log_time" (.timestamp (some TIMESTAMP_TZ)) false ::
    .mk "@publish_time" (.timestamp (some TIMESTAMP_TZ)) false :: schema

/-- Mirror of `extract_field` (`arrow_convert/mod.rs`): pick body child `i`
of a row root, `Null` rows yield `Null` for every column, any other root
shape panics. -/
def extract_field (root : Value) (i : Nat) : Except AppendErr Value :=
  match root with
  | .strct children => .ok (children.getD i .null)
  | .null => .ok .null
  | _ => .error (.panicE "expected Struct or Null as message root")

/-- Mirror of `build_array_from_values` (`arrow_convert/mod.rs`): make a
builder for the data type, append every row value, finish (the capacity
hint of the Rust code only pre-allocates).  The per-value append loop is
the same fold as `append_items`. -/
def build_array_from_values (dt : ADT) (values : List Value) :
    Except AppendErr Arr := do
  let b ← make_builder dt
  append_items b dt values

/-- Mirror of `RecordBatch`: schema fields plus parallel columns. -/
structure RecordBatch where
  fields : List AField
  columns : List Arr

/-- Number of rows of a batch (length of its first column, 0 if none). -/
def RecordBatch.numRows (b : RecordBatch) : Nat :=
  (b.columns.head?.map Arr.len).getD 0

/-- Model of `RecordBatch::try_new`: the column count must match the field
count and all columns must have one common length.  (The arrow
implementation also checks data types and null counts; those checks are
not needed by any theorem below and always pass for builder output.) -/
def record_batch_try_new (fields : List AField) (columns : List Arr) :
    Except String RecordBatch :=
  if columns.length != fields.length then
    .error "number of columns must match number of fields"
  else
    match columns.head? with
    | none => .ok ⟨fields, columns⟩
    | some c =>
      if columns.all (fun a => a.len == c.len) then
        .ok ⟨fields, columns⟩
      else
        .error "all columns in a record batch must have the same length"

/-- Mirror of `ArrowConvertError` (`mcap2arrow-arrow/src/error.rs`), plus a
panic constructor for the panic-channel variant of the converter.  The
`Display` text of `EmptyRows` is exactly the panic message of the
panic-based `arrow_value_rows_to_record_batch`
("Cannot create RecordBatch from empty rows"). -/
inductive ArrowConvertError where
  | emptyRows
  | valueType (e : ValueTypeError)
  | arrow (msg : String)
  | panicE (msg : String)
deriving DecidableEq

/-- Lift appender errors into `ArrowConvertError` (`#[from] ValueTypeError`;
panics stay panics). -/
def liftAppend {α : Type} : Except AppendErr α → Except ArrowConvertError α
  | .ok a => .ok a
  | .error (.vt e) => .error (.valueType e)
  | .error (.panicE m) => .error (.panicE m)

/-- Rust `i64::MAX`. -/
def I64_MAX : Nat := 2 ^ 63 - 1

/-- Timestamp-column cells: `i64::try_from(u64)` fails above `i64::MAX`
(`.expect("… exceeds i64::MAX")` in `arrow_convert/mod.rs`). -/
def timestampCells (times : List Nat) (what : String) :
    Except ArrowConvertError (List (Option Int)) :=
  times.mapM fun t =>
    if t ≤ I64_MAX then .ok (some (t : Int))
    else .error (.panicE (what ++ " exceeds i64::MAX"))

/-- Body-column loop of `arrow_value_rows_to_record_batch`: for field `i`,
collect `extract_field(row.value, i)` over the rows and build the column
array. -/
def build_body_columns (rows : List DecodedMessage) (fields : List AField)
    (i : Nat) : Except ArrowConvertError (List Arr) :=
  match fields with
  | [] => .ok []
  | f :: rest => do
    let values ← liftAppend (rows.mapM (fun r => extract_field r.value i))
    let arr ← liftAppend (build_array_from_values f.dt values)
    let more ← build_body_columns rows rest (i + 1)
    .ok (arr :: more)

/-- Row-to-batch conversion.  The body is the logic of
`arrow_value_rows_to_record_batch` (`arrow_convert/mod.rs`); the typed
error channel is `try_arrow_value_rows_to_record_batch`, which `lib.rs`
re-exports but whose body is absent from the source tree.  Modelled from
the spec: the `try` variant fails with `EmptyRows` on an empty slice and
`ValueType` on shape mismatches; the panic-based variant in `mod.rs`
follows the same paths, panicking with the identical `EmptyRows` display
message, so both are embedded as this one `Except`-valued function with
panics carried by `ArrowConvertError.panicE`. -/
def try_arrow_value_rows_to_record_batch (body_schema : List AField)
    (rows : List DecodedMessage) : Except ArrowConvertError RecordBatch :=
  if rows.isEmpty then
    .error .emptyRows
  else do
    let full_schema := with_timestamp_fields body_schema
    let lt ← timestampCells (rows.map (·.log_time)) "log_time"
    let pt ← timestampCells (rows.map (·.publish_time)) "publish_time"
    let body ← build_body_columns rows body_schema 0
    match record_batch_try_new full_schema (.tsA lt :: .tsA pt :: body) with
    | .ok batch => .ok batch
    | .error _ =>
      .error (.panicE "RecordBatch::try_new failed: schema/array type mismatch")

/-! ## mcap2arrow: `reader.rs` pipeline -/

/-- A container message as the pipeline sees it (`mcap::Message` fields the
loop reads: channel id, payload, log/publish time). -/
structure PMessage where
  channel_id : Nat
  data : List Nat
  log_time : Nat
  publish_time : Nat

/-- Pipeline error model for `for_each_record_batch`: a per-message decode
failure wrapped as `MessageDecodeFailed`, or a batch-conversion failure. -/
inductive PipelineErr where
  | messageDecodeFailed (topic : String) (source : String)
  | convert (e : ArrowConvertError)
deriving DecidableEq

/-- Mirror of the `flush_batch` helper in `reader.rs`: an empty buffer
returns immediately with no appender call and no callback; otherwise the
rows are converted and the batch handed to the callback (the callback is
modelled as collecting, so the returned option is the invocation). -/
def flush_batch (schema : List AField) (rows : List DecodedMessage) :
    Except PipelineErr (Option RecordBatch) :=
  if rows.isEmpty then
    .ok none
  else
    match try_arrow_value_rows_to_record_batch schema rows with
    | .ok b => .ok (some b)
    | .error e => .error (.convert e)

/-- The message loop of `for_each_record_batch`: filter on the channel id,
decode, buffer, flush at `batch_size`, and flush the remainder at end of
stream.  The returned list is the sequence of callback invocations. -/
def pipeline_loop (topic : String) (channel_id : Nat)
    (dec : List Nat → Except String Value) (schema : List AField)
    (batch_size : Nat) (msgs : List PMessage) (rows : List DecodedMessage)
    (acc : List RecordBatch) : Except PipelineErr (List RecordBatch) :=
  match msgs with
  | [] =>
    match flush_batch schema rows with
    | .error e => .error e
    | .ok none => .ok acc
    | .ok (some b) => .ok (acc ++ [b])
  | m :: rest =>
    if m.channel_id != channel_id then
      pipeline_loop topic channel_id dec schema batch_size rest rows acc
    else
      match dec m.data with
      | .error e => .error (.messageDecodeFailed topic e)
      | .ok v =>
        let rows := rows ++ [⟨m.log_time, m.publish_time, v⟩]
        if rows.length ≥ batch_size then
          match flush_batch schema rows with
          | .error e => .error e
          | .ok none => pipeline_loop topic channel_id dec schema batch_size rest [] acc
          | .ok (some b) =>
            pipeline_loop topic channel_id dec schema batch_size rest [] (acc ++ [b])
        else
          pipeline_loop topic channel_id dec schema batch_size rest rows acc

/-- Mirror of `for_each_record_batch` after topic resolution: run the loop
with an empty buffer. -/
def for_each_record_batch (topic : String) (channel_id : Nat)
    (dec : List Nat → Except String Value) (schema : List AField)
    (batch_size : Nat) (msgs : List PMessage) :
    Except PipelineErr (List RecordBatch) :=
  pipeline_loop topic channel_id dec schema batch_size msgs [] []

/-! ## mcap2arrow-arrow: `flatten.rs` -/

/-- Mirror of `ListPolicy` (`flatten.rs`): `FlattenFixed` carries the fixed
column count. -/
inductive ListPolicy where
  | drop
  | keep
  | flattenFixed (n : Nat)
deriving DecidableEq

/-- Mirror of `ArrayPolicy` (`flatten.rs`). -/
inductive ArrayPolicy where
  | drop
  | keep
  | flatten
deriving DecidableEq

/-- Mirror of `MapPolicy` (`flatten.rs`). -/
inductive MapPolicy where
  | drop
  | keep
deriving DecidableEq

/-- Mirror of `FlattenPolicy` (`flatten.rs`): per-type policies for `List`,
`FixedSizeList` and `Map` columns.  The struct `flatten.rs` defines has
exactly these three fields; `Struct` columns have no policy and are always
expanded inline by `collect_columns`. -/
structure FlattenPolicy where
  list : ListPolicy
  array : ArrayPolicy
  map : MapPolicy
deriving DecidableEq

/-- Mirror of `FlattenPolicy::for_csv`. -/
def FlattenPolicy.for_csv : FlattenPolicy :=
  ⟨.drop, .flatten, .drop⟩

/-- Mirror of `FlattenPolicy::for_parquet`. -/
def FlattenPolicy.for_parquet : FlattenPolicy :=
  ⟨.keep, .keep, .keep⟩

/-- Mirror of `CommonPostProcess` (`flatten.rs`). -/
inductive CommonPostProcess where
  | drop
  | keep
  | none
deriving DecidableEq

/-- Mirror of `CommonPostProcess::from_list_policy`. -/
def CommonPostProcess.from_list_policy : ListPolicy → CommonPostProcess
  | .drop => .drop
  | .keep => .keep
  | .flattenFixed _ => .none

/-- Mirror of `CommonPostProcess::from_array_policy`. -/
def CommonPostProcess.from_array_policy : ArrayPolicy → CommonPostProcess
  | .drop => .drop
  | .keep => .keep
  | .flatten => .none

/-- Mirror of `CommonPostProcess::from_map_policy`. -/
def CommonPostProcess.from_map_policy : MapPolicy → CommonPostProcess
  | .drop => .drop
  | .keep => .keep

/-- Ordered insert without duplicates, modelling `BTreeSet<String>::insert`
(the `dropped` set iterates in ascending order). -/
def sortedInsert (l : List String) (x : String) : List String :=
  match l with
  | [] => [x]
  | y :: rest =>
    if x < y then x :: y :: rest
    else if x == y then y :: rest
    else y :: sortedInsert rest x

/-- Mirror of `Collector` (`flatten.rs`). -/
structure Collector where
  fields : List AField
  arrays : List Arr
  dropped : List String

/-- Mirror of `Collector::push`. -/
def Collector.push (c : Collector) (f : AField) (a : Arr) : Collector :=
  { c with fields := c.fields ++ [f], arrays := c.arrays ++ [a] }

/-- Mirror of `Collector::keep`: a new field named `path` with the source
field's type and nullability. -/
def Collector.keepCol (c : Collector) (path : String) (f : AField) (a : Arr) :
    Collector :=
  c.push (.mk path f.dt f.nullable) a

/-- Mirror of `Collector::drop`. -/
def Collector.dropCol (c : Collector) (path : String) : Collector :=
  { c with dropped := sortedInsert c.dropped path }

/-- Mirror of `CommonPostProcess::apply`. -/
def CommonPostProcess.apply (p : CommonPostProcess) (path : String)
    (field : AField) (col : Arr) (out : Collector) : Collector :=
  match p with
  | .drop => out.dropCol path
  | .keep => out.keepCol path field col
  | .none => out

/-- Gather of cells for the `take` kernel: a null index produces a null
cell, a valid index copies the source cell, an out-of-range index is an
error. -/
def takeCells {α : Type} (cells : List (Option α)) (idx : List (Option Nat)) :
    Except String (List (Option α)) :=
  idx.mapM fun
    | Option.none => .ok none
    | some i =>
      match cells.get? i with
      | some c => .ok c
      | none => .error "take index out of bounds"

/-- Validity gather for `take`: null indices are invalid rows. -/
def takeValidity (validity : List Bool) (count : Nat) (idx : List (Option Nat)) :
    Except String (List Bool) :=
  idx.mapM fun
    | Option.none => .ok false
    | some i =>
      if i < count then .ok (validity.getD i true)
      else .error "take index out of bounds"

/-- Re-slicing plan for `take` on offset-based arrays (`List`/`Map`): child
indices to gather, output offsets (arrow layout, with the leading 0) and
output validity. -/
def takeListPlan (offsets : List Nat) (validity : List Bool) (rows : Nat)
    (idx : List (Option Nat)) :
    Except String (List (Option Nat) × List Nat × List Bool) :=
  match idx with
  | [] => .ok ([], [0], [])
  | i :: rest =>
    match i with
    | Option.none => do
      let (childIdx, offs, valid) ← takeListPlan offsets validity rows rest
      .ok (childIdx, 0 :: offs, false :: valid)
    | some j =>
      if j < rows then do
        let start := offsets.getD j 0
        let stop := offsets.getD (j + 1) 0
        let slice := (List.range (stop - start)).map (fun k => some (start + k))
        let (childIdx, offs, valid) ← takeListPlan offsets validity rows rest
        .ok (slice ++ childIdx, 0 :: offs.map (· + (stop - start)),
          (validity.getD j true) :: valid)
      else
        .error "take index out of bounds"

mutual

/-- Model of `arrow::compute::take` on the array model: select rows by
index, null indices yielding null rows.  Only the cases the flatten pass
can reach are gathered structurally; list-shaped sources re-slice their
children. -/
def takeArr (values : Arr) (idx : List (Option Nat)) : Except String Arr :=
  match values with
  | .nullA c =>
    if idx.all (fun | Option.none => true | some i => i < c) then
      .ok (.nullA idx.length)
    else .error "take index out of bounds"
  | .boolA cs => do .ok (.boolA (← takeCells cs idx))
  | .int8A cs => do .ok (.int8A (← takeCells cs idx))
  | .int16A cs => do .ok (.int16A (← takeCells cs idx))
  | .int32A cs => do .ok (.int32A (← takeCells cs idx))
  | .int64A cs => do .ok (.int64A (← takeCells cs idx))
  | .uint8A cs => do .ok (.uint8A (← takeCells cs idx))
  | .uint16A cs => do .ok (.uint16A (← takeCells cs idx))
  | .uint32A cs => do .ok (.uint32A (← takeCells cs idx))
  | .uint64A cs => do .ok (.uint64A (← takeCells cs idx))
  | .float32A cs => do .ok (.float32A (← takeCells cs idx))
  | .float64A cs => do .ok (.float64A (← takeCells cs idx))
  | .stringA cs => do .ok (.stringA (← takeCells cs idx))
  | .binaryA cs => do .ok (.binaryA (← takeCells cs idx))
  | .tsA cs => do .ok (.tsA (← takeCells cs idx))
  | .structA fields children validity => do
    let children ← takeArrMany children idx
    let validity ← takeValidity validity validity.length idx
    .ok (.structA fields children validity)
  | .listA child offsets validity => do
    let rows := offsets.length - 1
    let plan ← takeListPlan offsets validity rows idx
    let child ← takeArr child plan.1
    .ok (.listA child plan.2.1 plan.2.2)
  | .fslA child size validity => do
    let childIdx := idx.flatMap fun
      | Option.none => List.replicate size Option.none
      | some i => (List.range size).map (fun k => some (i * size + k))
    let child ← takeArr child childIdx
    let validity ← takeValidity validity validity.length idx
    .ok (.fslA child size validity)
  | .mapA keys vals offsets validity => do
    let rows := offsets.length - 1
    let plan ← takeListPlan offsets validity rows idx
    let keys ← takeArr keys plan.1
    let vals ← takeArr vals plan.1
    .ok (.mapA keys vals plan.2.1 plan.2.2)

/-- Child loop of `takeArr` for struct children. -/
def takeArrMany (children : List Arr) (idx : List (Option Nat)) :
    Except String (List Arr) :=
  match children with
  | [] => .ok []
  | c :: rest => do
    let c ← takeArr c idx
    let rest ← takeArrMany rest idx
    .ok (c :: rest)

end

/-- Mirror of `expand_by_index` (`flatten.rs`): for each element index
`i < n`, build a column by `take`-ing `index_fn(row, i)` over all rows.
Each produced column is `Field::new(format!("{name}{sep}{i}"), item_type,
true)`; the pairs are returned as `(column name, array)` and the field is
rebuilt at the use site. -/
def expand_by_index (values : Arr) (n_rows n : Nat) (name sep : String)
    (index_fn : Nat → Nat → Option Nat) : Except String (List (String × Arr)) :=
  (List.range n).mapM fun i => do
    let indices := (List.range n_rows).map (fun row => index_fn row i)
    let col ← takeArr values indices
    .ok (name ++ sep ++ toString i, col)

/-- Mirror of `expand_fixed_size_list` (`flatten.rs`): element `i` of row
`row` lives at child offset `row * size + i`; null parent rows produce
nulls. -/
def expand_fixed_size_list (values : Arr) (size : Nat) (validity : List Bool)
    (name sep : String) : Except String (List (String × Arr)) :=
  expand_by_index values validity.length size name sep fun row i =>
    if validity.getD row true = false then none else some (row * size + i)

/-- Mirror of `expand_list_fixed` (`flatten.rs`): expand a list column into
exactly `n` columns; a row shorter than `n` pads with nulls, a longer row
is truncated, a null row is all nulls. -/
def expand_list_fixed (values : Arr) (offsets : List Nat) (validity : List Bool)
    (name : String) (n : Nat) (sep : String) :
    Except String (List (String × Arr)) :=
  expand_by_index values (offsets.length - 1) n name sep fun row i =>
    if validity.getD row true = false then
      none
    else
      let start := offsets.getD row 0
      let stop := offsets.getD (row + 1) 0
      if i < stop - start then some (start + i) else none

mutual

/-- Mirror of `collect_columns` (`flatten.rs`): `Struct` columns are always
expanded inline into their children at paths `{path}{sep}{child}` (there is
no struct policy); `List` columns are expanded only under
`ListPolicy::FlattenFixed`; `FixedSizeList` only under
`ArrayPolicy::Flatten`; then the `CommonPostProcess` derived from the
per-type policy keeps, drops, or omits the column itself.  The
`downcast_ref().expect(…)` panics become errors. -/
def collect_columns (field : AField) (path : String) (col : Arr) (sep : String)
    (p : FlattenPolicy) (out : Collector) : Except String Collector :=
  match field with
  | .mk _ (.strct child_fields) _ =>
    match col with
    | .structA _ children _ => do
      let out ← collectStructChildren child_fields children path sep p out
      .ok (CommonPostProcess.none.apply path field col out)
    | _ => .error "DataType::Struct matches StructArray"
  | .mk _ (.list (.mk _ idt _)) _ =>
    match p.list with
    | .flattenFixed n =>
      match col with
      | .listA values offsets validity => do
        let pairs ← expand_list_fixed values offsets validity path n sep
        let out ← collectExpanded idt pairs sep p out
        .ok ((CommonPostProcess.from_list_policy p.list).apply path field col out)
      | _ => .error "DataType::List matches ListArray"
    | _ =>
      .ok ((CommonPostProcess.from_list_policy p.list).apply path field col out)
  | .mk _ (.fixedSizeList (.mk _ idt _) _) _ =>
    if p.array = .flatten then
      match col with
      | .fslA values size validity => do
        let pairs ← expand_fixed_size_list values size validity path sep
        let out ← collectExpanded idt pairs sep p out
        .ok ((CommonPostProcess.from_array_policy p.array).apply path field col out)
      | _ => .error "DataType::FixedSizeList matches FixedSizeListArray"
    else
      .ok ((CommonPostProcess.from_array_policy p.array).apply path field col out)
  | .mk _ (.map _ _) _ =>
    .ok ((CommonPostProcess.from_map_policy p.map).apply path field col out)
  | _ =>
    .ok (CommonPostProcess.keep.apply path field col out)
termination_by (sizeOf field.dt, 0)
decreasing_by all_goals simp [AField.dt]; omega

/-- Child loop of the `Struct` arm of `collect_columns`: recurse into each
child at path `{path}{sep}{child_name}` (`struct_arr.column(i)` panics on a
missing column, which cannot happen for a well-formed struct array). -/
def collectStructChildren (fields : List AField) (cols : List Arr)
    (path sep : String) (p : FlattenPolicy) (out : Collector) :
    Except String Collector :=
  match fields, cols with
  | [], _ => .ok out
  | .mk cname cdt cnull :: frest, ccol :: crest => do
    let out ← collect_columns (.mk cname cdt cnull) (path ++ sep ++ cname) ccol sep p out
    collectStructChildren frest crest path sep p out
  | _ :: _, [] => .error "index out of bounds"
termination_by (sizeOf fields, 1)
decreasing_by all_goals simp [AField.dt]; omega

/-- Loop over the columns produced by an expansion: each `(name, array)`
pair becomes `Field::new(name, item_type, true)` and is recursed into with
its own name as the path. -/
def collectExpanded (idt : ADT) (pairs : List (String × Arr)) (sep : String)
    (p : FlattenPolicy) (out : Collector) : Except String Collector :=
  match pairs with
  | [] => .ok out
  | (nm, a) :: rest => do
    let out ← collect_columns (.mk nm idt true) nm a sep p out
    collectExpanded idt rest sep p out
termination_by (sizeOf idt, pairs.length + 1)
decreasing_by all_goals simp [AField.dt]; omega

end

/-- Top-level column loop of `flatten_record_batch`. -/
def collectAll (fields : List AField) (cols : List Arr) (sep : String)
    (p : FlattenPolicy) (out : Collector) : Except String Collector :=
  match fields, cols with
  | [], _ => .ok out
  | f :: frest, c :: crest => do
    let out ← collect_columns f f.name c sep p out
    collectAll frest crest sep p out
  | _ :: _, [] => .error "index out of bounds"

/-- The collision scan of `flatten_record_batch` (`HashSet::insert` loop):
returns the first output name seen twice, in field order. -/
def dupFind (seen : List String) (names : List String) : Option String :=
  match names with
  | [] => none
  | n :: rest => if seen.contains n then some n else dupFind (n :: seen) rest

/-- Mirror of `flatten_record_batch` (`flatten.rs`): walk every top-level
column with `collect_columns`, fail on a duplicated output path with
`InvalidArgumentError("flattening column name collision: '…'")`, and
return the rebuilt batch together with the sorted dropped paths. -/
def flatten_record_batch (batch : RecordBatch) (separator : Option Char)
    (p : FlattenPolicy) : Except String (RecordBatch × List String) := do
  let sep := String.singleton (separator.getD '.')
  let c ← collectAll batch.fields batch.columns sep p ⟨[], [], []⟩
  match dupFind [] (c.fields.map AField.name) with
  | some d => .error ("flattening column name collision: " ++ sq ++ d ++ sq)
  | none =>
    match record_batch_try_new c.fields c.arrays with
    | .ok rb => .ok (rb, c.dropped)
    | .error e => .error e

/-! ## mcap2arrow-core: schema IR (`schema/types.rs`) -/

mutual

/-- Mirror of `DataTypeDef` (`mcap2arrow-core/src/schema/types.rs`). -/
inductive DataTypeDef where
  | null
  | bool
  | i8
  | i16
  | i32
  | i64
  | u8
  | u16
  | u32
  | u64
  | f32
  | f64
  | string
  | bytes
  | strct (fields : List FieldDef)
  | list (elem : ElementDef)
  | array (elem : ElementDef) (size : Nat)
  | mapKV (key : ElementDef) (value : ElementDef)

/-- Mirror of `ElementDef`. -/
inductive ElementDef where
  | mk (data_type : DataTypeDef) (nullable : Bool)

/-- Mirror of `FieldDef` (`FieldDef::new(name, dt, nullable)`). -/
inductive FieldDef where
  | mk (name : String) (element : ElementDef)

end

/-- `FieldDef` name accessor. -/
def FieldDef.name : FieldDef → String
  | .mk n _ => n

/-- `FieldDef.element.data_type` accessor. -/
def FieldDef.data_type : FieldDef → DataTypeDef
  | .mk _ (.mk dt _) => dt

/-- `FieldDef.element.nullable` accessor. -/
def FieldDef.nullable : FieldDef → Bool
  | .mk _ (.mk _ nb) => nb

/-! ## mcap2arrow-protobuf

The `prost_reflect` descriptor and dynamic-message runtime is an external
library; it is embedded by its documented semantics: a message descriptor
is a finite tree of field descriptors, and a decoded `DynamicMessage`
assigns each descriptor field an optional wire value (`none` = unset, so
`has_field` is `isSome`, and `get_field` substitutes the proto default for
an unset field). -/

mutual

/-- Mirror of `prost_reflect::Kind` (the project only inspects these). -/
inductive PKind where
  | double
  | float
  | int32
  | sint32
  | sfixed32
  | int64
  | sint64
  | sfixed64
  | uint32
  | fixed32
  | uint64
  | fixed64
  | bool
  | string
  | bytes
  | enum (ed : PEnumDescriptor)
  | message (md : PMessageDescriptor)

/-- Enum descriptor: declared `(number, name)` pairs. -/
inductive PEnumDescriptor where
  | mk (values : List (Int × String))

/-- Message descriptor: name, ordered fields, `is_map_entry` flag. -/
inductive PMessageDescriptor where
  | mk (name : String) (fields : List PFieldDescriptor) (is_map_entry : Bool)

/-- Field descriptor with the properties the code queries:
`name`, `kind`, `supports_presence`, `is_list`, `is_map`. -/
inductive PFieldDescriptor where
  | mk (name : String) (kind : PKind) (supports_presence : Bool)
      (is_list : Bool) (is_map : Bool)

end

/-- Field-descriptor name. -/
def PFieldDescriptor.name : PFieldDescriptor → String
  | .mk n _ _ _ _ => n

/-- Field-descriptor kind. -/
def PFieldDescriptor.kind : PFieldDescriptor → PKind
  | .mk _ k _ _ _ => k

/-- Field-descriptor `supports_presence`. -/
def PFieldDescriptor.supports_presence : PFieldDescriptor → Bool
  | .mk _ _ sp _ _ => sp

/-- Field-descriptor `is_list`. -/
def PFieldDescriptor.is_list : PFieldDescriptor → Bool
  | .mk _ _ _ il _ => il

/-- Field-descriptor `is_map`. -/
def PFieldDescriptor.is_map : PFieldDescriptor → Bool
  | .mk _ _ _ _ im => im

mutual

/-- Mirror of `prost_reflect::Value`. -/
inductive ProtoValue where
  | bool (v : Bool)
  | i32 (v : Int)
  | i64 (v : Int)
  | u32 (v : Nat)
  | u64 (v : Nat)
  | f32 (bits : Nat)
  | f64 (bits : Nat)
  | string (s : String)
  | bytes (b : List Nat)
  | enumNumber (n : Int)
  | message (m : PDynamicMessage)
  | list (items : List ProtoValue)
  | mapV (entries : List (PMapKey × ProtoValue))

/-- A decoded `DynamicMessage`: one optional wire value per descriptor
field, in descriptor order (`none` = field not set on the wire). -/
inductive PDynamicMessage where
  | mk (slots : List (Option ProtoValue))

/-- Mirror of `prost_reflect::MapKey`. -/
inductive PMapKey where
  | bool (v : Bool)
  | i32 (v : Int)
  | i64 (v : Int)
  | u32 (v : Nat)
  | u64 (v : Nat)
  | string (s : String)

end

/-- The `DynamicMessage` decoded from an empty payload: every field
unset. -/
def emptyDynamicMessage (desc : PMessageDescriptor) : PDynamicMessage :=
  match desc with
  | .mk _ fields _ => .mk (fields.map (fun _ => none))

/-- Proto default for a kind (`prost_reflect::Value::default_value`):
numeric zero, `false`, empty string/bytes, the enum's default number, and
the all-unset message. -/
def defaultProtoValue (kind : PKind) : ProtoValue :=
  match kind with
  | .double => .f64 0
  | .float => .f32 0
  | .int32 | .sint32 | .sfixed32 => .i32 0
  | .int64 | .sint64 | .sfixed64 => .i64 0
  | .uint32 | .fixed32 => .u32 0
  | .uint64 | .fixed64 => .u64 0
  | .bool => .bool false
  | .string => .string ""
  | .bytes => .bytes []
  | .enum (.mk values) => .enumNumber ((values.head?.map (·.1)).getD 0)
  | .message md => .message (emptyDynamicMessage md)

/-- Per-field default (`Value::default_value_for_field`): repeated fields
default to the empty list, map fields to the empty map, otherwise the kind
default. -/
def defaultForField (fd : PFieldDescriptor) : ProtoValue :=
  if fd.is_list then .list []
  else if fd.is_map then .mapV []
  else defaultProtoValue fd.kind

/-- `DynamicMessage::has_field`: the slot is set. -/
def has_field (msg : PDynamicMessage) (i : Nat) : Bool :=
  match msg with
  | .mk slots => ((slots.getD i none).isSome)

/-- `DynamicMessage::get_field`: the set value, or the field default. -/
def get_field (msg : PDynamicMessage) (i : Nat) (fd : PFieldDescriptor) : ProtoValue :=
  match msg with
  | .mk slots => (slots.getD i none).getD (defaultForField fd)

/-- Mirror of `PresencePolicy` (`mcap2arrow-protobuf/src/policy.rs`). -/
inductive PresencePolicy where
  | alwaysDefault
  | presenceAware
deriving DecidableEq

/-- Kind of the `value` field of a map-entry message
(`map_entry_value_field().kind()`); `none` when the entry has no such
field. -/
def findValueFieldKind : List PFieldDescriptor → Option PKind
  | [] => none
  | fd :: rest => if fd.name == "value" then some fd.kind else findValueFieldKind rest

/-- Mirror of `enum_to_value` (`proto_to_arrow.rs`): variant name, falling
back to the decimal number. -/
def enum_to_value (n : Int) (ed : PEnumDescriptor) : Value :=
  match ed with
  | .mk values =>
    match values.find? (fun p => p.1 == n) with
    | some p => .string p.2
    | none => .string (toString n)

/-- Mirror of `map_key_to_value` (`proto_to_arrow.rs`). -/
def map_key_to_value : PMapKey → Value
  | .bool v => .bool v
  | .i32 v => .i32 v
  | .i64 v => .i64 v
  | .u32 v => .u32 v
  | .u64 v => .u64 v
  | .string s => .string s

mutual

/-- Mirror of `message_to_value` (`proto_to_arrow.rs`): one child per
descriptor field; under `PresenceAware` a presence-supporting unset field
becomes `Value::Null`, otherwise `get_field` (set value or default) is
converted under the field's kind.  `fuel` bounds recursion depth (the Rust
recursion is stack-bounded and can diverge on recursive message types
under `AlwaysDefault`); panics are the error channel. -/
def message_to_value (fuel : Nat) (msg : PDynamicMessage)
    (desc : PMessageDescriptor) (policy : PresencePolicy) :
    Except String Value :=
  match fuel with
  | 0 => .error "recursion limit"
  | fuel + 1 =>
    match desc with
    | .mk _ fields _ => do
      let children ← message_fields_loop fuel msg fields 0 policy
      .ok (.strct children)

/-- Field loop of `message_to_value` (`desc.fields().map(…)`). -/
def message_fields_loop (fuel : Nat) (msg : PDynamicMessage)
    (fields : List PFieldDescriptor) (i : Nat) (policy : PresencePolicy) :
    Except String (List Value) :=
  match fuel with
  | 0 => .error "recursion limit"
  | fuel + 1 =>
    match fields with
    | [] => .ok []
    | fd :: rest => do
      let v ←
        if policy = .presenceAware ∧ fd.supports_presence ∧ ¬ has_field msg i then
          .ok Value.null
        else
          proto_value_to_value fuel (get_field msg i fd) fd.kind policy
      let vs ← message_fields_loop fuel msg rest (i + 1) policy
      .ok (v :: vs)

/-- Mirror of `proto_value_to_value` (`proto_to_arrow.rs`). -/
def proto_value_to_value (fuel : Nat) (value : ProtoValue) (kind : PKind)
    (policy : PresencePolicy) : Except String Value :=
  match fuel with
  | 0 => .error "recursion limit"
  | fuel + 1 =>
    match value with
    | .bool v => .ok (.bool v)
    | .i32 v => .ok (.i32 v)
    | .i64 v => .ok (.i64 v)
    | .u32 v => .ok (.u32 v)
    | .u64 v => .ok (.u64 v)
    | .f32 v => .ok (.f32 v)
    | .f64 v => .ok (.f64 v)
    | .string s => .ok (.string s)
    | .bytes b => .ok (.bytes b)
    | .enumNumber n =>
      match kind with
      | .enum ed => .ok (enum_to_value n ed)
      | _ => .error "EnumNumber with non-Enum kind"
    | .message m =>
      match kind with
      | .message md => message_to_value fuel m md policy
      | _ => .error "Message with non-Message kind"
    | .list items => do
      let vs ← proto_list_loop fuel items kind policy
      .ok (.list vs)
    | .mapV entries =>
      let value_kind :=
        match kind with
        | .message (.mk _ efields true) => (findValueFieldKind efields).getD kind
        | _ => kind
      do
        let es ← proto_map_loop fuel entries value_kind policy
        .ok (.map es)

/-- Item loop of the `List` arm of `proto_value_to_value`. -/
def proto_list_loop (fuel : Nat) (items : List ProtoValue) (kind : PKind)
    (policy : PresencePolicy) : Except String (List Value) :=
  match fuel with
  | 0 => .error "recursion limit"
  | fuel + 1 =>
    match items with
    | [] => .ok []
    | item :: rest => do
      let v ← proto_value_to_value fuel item kind policy
      let vs ← proto_list_loop fuel rest kind policy
      .ok (v :: vs)

/-- Entry loop of the `Map` arm of `proto_value_to_value`. -/
def proto_map_loop (fuel : Nat) (entries : List (PMapKey × ProtoValue))
    (value_kind : PKind) (policy : PresencePolicy) :
    Except String (List (Value × Value)) :=
  match fuel with
  | 0 => .error "recursion limit"
  | fuel + 1 =>
    match entries with
    | [] => .ok []
    | (k, v) :: rest => do
      let vv ← proto_value_to_value fuel v value_kind policy
      let vs ← proto_map_loop fuel rest value_kind policy
      .ok ((map_key_to_value k, vv) :: vs)

end

/-- Mirror of `DecoderError` as the protobuf schema path uses it. -/
inductive PDecoderError where
  | schemaInvalid (schema_name : String) (detail : String)
deriving DecidableEq

mutual

/-- Mirror of `kind_to_data_type_def` (`mcap2arrow-protobuf/src/schema.rs`). -/
def kind_to_data_type_def (schema_name : String) (fd : PFieldDescriptor)
    (policy : PresencePolicy) : Except PDecoderError DataTypeDef :=
  match fd with
  | .mk _ kind _ _ _ =>
    match kind with
    | .double => .ok .f64
    | .float => .ok .f32
    | .int32 | .sint32 | .sfixed32 => .ok .i32
    | .int64 | .sint64 | .sfixed64 => .ok .i64
    | .uint32 | .fixed32 => .ok .u32
    | .uint64 | .fixed64 => .ok .u64
    | .bool => .ok .bool
    | .string => .ok .string
    | .bytes => .ok .bytes
    | .enum _ => .ok .string
    | .message md => do
      let fields ← message_fields_to_field_defs schema_name md policy
      .ok (.strct fields)
termination_by (sizeOf fd, 0)

/-- Mirror of `message_fields_to_field_defs` (`schema.rs`). -/
def message_fields_to_field_defs (schema_name : String)
    (desc : PMessageDescriptor) (policy : PresencePolicy) :
    Except PDecoderError (List FieldDef) :=
  match desc with
  | .mk _ fields _ => field_defs_loop schema_name fields policy
termination_by (sizeOf desc, 1)

/-- Field loop of `message_fields_to_field_defs`. -/
def field_defs_loop (schema_name : String) (fields : List PFieldDescriptor)
    (policy : PresencePolicy) : Except PDecoderError (List FieldDef) :=
  match fields with
  | [] => .ok []
  | fd :: rest => do
    let f ← field_descriptor_to_field_def schema_name fd policy
    let fs ← field_defs_loop schema_name rest policy
    .ok (f :: fs)
termination_by (sizeOf fields, 0)

/-- Lookup-and-convert for one named field of a map entry
(`entry_desc.get_field_by_name(name)` followed by
`kind_to_data_type_def`). -/
def entry_field_dt (schema_name : String) (fields : List PFieldDescriptor)
    (nm : String) (policy : PresencePolicy) :
    Except PDecoderError (Option DataTypeDef) :=
  match fields with
  | [] => .ok none
  | fd :: rest =>
    if fd.name == nm then do
      let dt ← kind_to_data_type_def schema_name fd policy
      .ok (some dt)
    else
      entry_field_dt schema_name rest nm policy
termination_by (sizeOf fields, 0)

/-- The data-type computation of `field_descriptor_to_field_def`: lists
wrap the inner type in `List(…, nullable=false)`; map fields unwrap the
synthetic entry message into `Map{key, value}`. -/
def field_dt_for (schema_name : String) (fd : PFieldDescriptor)
    (inner_dt : DataTypeDef) (policy : PresencePolicy) :
    Except PDecoderError DataTypeDef :=
  if fd.is_list then
    .ok (DataTypeDef.list (.mk inner_dt false))
  else if fd.is_map then
    match _hk : fd.kind with
    | .message (.mk _ efields _) => do
      let key_dt? ← entry_field_dt schema_name efields "key" policy
      let val_dt? ← entry_field_dt schema_name efields "value" policy
      match key_dt? with
      | none => .error (.schemaInvalid schema_name
          ("map entry " ++ sq ++ fd.name ++ sq ++ " missing key field"))
      | some key_dt =>
        match val_dt? with
        | none => .error (.schemaInvalid schema_name
            ("map entry " ++ sq ++ fd.name ++ sq ++ " missing value field"))
        | some val_dt =>
          .ok (DataTypeDef.mapKV (.mk key_dt false) (.mk val_dt false))
    | _ => .error (.schemaInvalid schema_name
        ("map field " ++ sq ++ fd.name ++ sq ++ " has non-message kind"))
  else
    .ok inner_dt
termination_by (sizeOf fd, 1)
decreasing_by
all_goals cases fd
all_goals simp_all [PFieldDescriptor.kind]
all_goals omega

/-- Mirror of `field_descriptor_to_field_def` (`schema.rs`): the inner
kind-derived type, adjusted by `field_dt_for` for repeated/map fields;
nullability is `false` under `AlwaysDefault` and `supports_presence` under
`PresenceAware`. -/
def field_descriptor_to_field_def (schema_name : String)
    (fd : PFieldDescriptor) (policy : PresencePolicy) :
    Except PDecoderError FieldDef := do
  let inner_dt ← kind_to_data_type_def schema_name fd policy
  let dt ← field_dt_for schema_name fd inner_dt policy
  .ok (.mk fd.name (.mk dt
    (match policy with
     | .alwaysDefault => false
     | .presenceAware => fd.supports_presence)))
termination_by (sizeOf fd, 2)

end

/-! ## Verification-side definitions (predicates and concrete fixtures used
by the theorems) -/

/-- The `expected` variant name the row appender reports for each Arrow
data type (scalars via the `try_*` accessor, compounds via
`type_mismatch`). -/
def expected_variant : ADT → String
  | .null => "Null"
  | .boolean => "Bool"
  | .int8 => "I8"
  | .int16 => "I16"
  | .int32 => "I32"
  | .int64 => "I64"
  | .uint8 => "U8"
  | .uint16 => "U16"
  | .uint32 => "U32"
  | .uint64 => "U64"
  | .float32 => "F32"
  | .float64 => "F64"
  | .utf8 => "String"
  | .binary => "Bytes"
  | .timestamp _ => "I64"
  | .list _ => "List"
  | .fixedSizeList _ _ => "Array"
  | .strct _ => "Struct"
  | .map _ _ => "Map"

/-- Whether a value's variant matches an Arrow data type (the §3 invariant
pairing: `Bool↔Bool`, equal-width integers, `Timestamp↔I64`, and matching
compound variants). -/
def variant_matches : ADT → Value → Bool
  | .boolean, .bool _ => true
  | .int8, .i8 _ => true
  | .int16, .i16 _ => true
  | .int32, .i32 _ => true
  | .int64, .i64 _ => true
  | .uint8, .u8 _ => true
  | .uint16, .u16 _ => true
  | .uint32, .u32 _ => true
  | .uint64, .u64 _ => true
  | .float32, .f32 _ => true
  | .float64, .f64 _ => true
  | .utf8, .string _ => true
  | .binary, .bytes _ => true
  | .timestamp _, .i64 _ => true
  | .list _, .list _ => true
  | .fixedSizeList _ _, .array _ => true
  | .strct _, .strct _ => true
  | .map _ _, .map _ => true
  | _, _ => false

/-- A leaf (non-compound) Arrow data type: `collect_columns` applies the
plain `Keep` post-process to these. -/
def ADT.isLeaf : ADT → Bool
  | .list _ => false
  | .fixedSizeList _ _ => false
  | .strct _ => false
  | .map _ _ => false
  | _ => true

/-- The suffix test of the `find_by_suffix` loop as a predicate on one
key. -/
def sfx (wanted key : List String) : Bool :=
  !(key.length < wanted.length) && (key.drop (key.length - wanted.length) == wanted)

/-- ROS 2 schema of §8 scenario 3: `{flag: U8, value: F64}`. -/
def c3Schema : ResolvedSchema :=
  { root := ["Msg"]
    structs := [(["Msg"],
      ⟨[⟨"flag", .primitive .u8, none⟩, ⟨"value", .primitive .f64, none⟩]⟩)]
    enums := [] }

/-- §8 scenario 3 input: LE encapsulation header followed by
`07 00 00 00 00 00 00 00 00 00 00 00 00 00 F4 3F`. -/
def c3Payload : List Nat :=
  [0x00, 0x01, 0x00, 0x00,
   0x07, 0x00, 0x00, 0x00, 0x00, 0x00, 0x00, 0x00,
   0x00, 0x00, 0x00, 0x00, 0x00, 0x00, 0xF4, 0x3F]

/-- Descriptor of `message Opt { optional int32 count = 1; }`: a proto3
`optional` scalar field supports presence. -/
def optCountFd : PFieldDescriptor := .mk "count" .int32 true false false

/-- Message descriptor for `Opt`. -/
def optDesc : PMessageDescriptor := .mk "Opt" [optCountFd] false

/-- Field list of a message descriptor. -/
def PMessageDescriptor.fields : PMessageDescriptor → List PFieldDescriptor
  | .mk _ fs _ => fs

/-! # Theorems -/

/-- Claim C3: in the CDR decoder, alignment is relative to the end of the
4-byte encapsulation header: with `align_base = 4`, aligning for a
primitive of size `s` at absolute offset `o` skips exactly
`(s - ((o - 4) % s)) % s` padding bytes (when they are available — `align`
fails on underflow otherwise); consequently the 16 payload bytes
`07 00 00 00 00 00 00 00 00 00 00 00 00 00 F4 3F` after an LE header decode
under schema `{flag: U8, value: F64}` to `Struct[U8 7, F64 1.25]`
(`0x3FF4000000000000` is the IEEE-754 bit pattern of `1.25`: sign 0,
biased exponent `0x3FF`, mantissa `0x4…`). -/
theorem C3_cdr_alignment :
    (∀ (st : DecState) (s : Nat), st.align_base = 4 →
        (s - (st.current_offset - 4) % s) % s ≤ st.remaining →
        align st s =
          .ok { st with pos := st.pos + (s - (st.current_offset - 4) % s) % s }) ∧
    decode_cdr_to_value 10 c3Schema c3Payload =
      .ok (.strct [.u8 7, .f64 0x3FF4000000000000]) := by
  refine ⟨fun st s hbase hrem => ?_, rfl⟩
  unfold align
  rw [hbase, if_neg (by omega)]

/-- Witness for C3: aligning for an 8-byte primitive at offset 5 (one byte
into the payload) skips exactly 7 padding bytes, landing at offset 12. -/
theorem C3_cdr_alignment_witness :
    align ⟨List.replicate 20 0, 5, 4⟩ 8 = .ok ⟨List.replicate 20 0, 12, 4⟩ :=
  C3_cdr_alignment.1 ⟨List.replicate 20 0, 5, 4⟩ 8 rfl (by decide)

/-- Claim C9: a CDR string whose 4-aligned `u32` length prefix is 0 decodes
to the empty string consuming nothing past the prefix; the NUL-terminator
check (error `string missing null terminator`) only applies to a positive
length prefix. -/
theorem C9_empty_string_decode :
    (∀ (st st' : DecState) (path : String),
        align st 4 = .ok st' →
        4 ≤ st'.remaining →
        st'.peek 4 = [0, 0, 0, 0] →
        decode_string st path = .ok ("", { st' with pos := st'.pos + 4 })) ∧
    (∀ (st st' : DecState) (path : String) (len : Nat),
        align st 4 = .ok st' →
        4 ≤ st'.remaining →
        leNat (st'.peek 4) = len →
        0 < len →
        len ≤ st'.remaining - 4 →
        (DecState.peek { st' with pos := st'.pos + 4 } len).getLast? ≠ some 0 →
        decode_string st path =
          .error ("string missing null terminator at " ++ path)) := by
  constructor
  · intro st st' path halign hrem hpeek
    unfold decode_string
    rw [halign]
    show (readLE st' 4 path >>= _) = _
    unfold readLE
    rw [if_neg (by omega), hpeek]
    rfl
  · intro st st' path len halign hrem hlen hpos hav hlast
    unfold decode_string
    rw [halign]
    show (readLE st' 4 path >>= _) = _
    unfold readLE
    rw [if_neg (by omega), hlen]
    show (if (len == 0) = true then _ else _) = _
    rw [if_neg (by simp; omega)]
    show (read_bytes _ len path >>= _) = _
    unfold read_bytes
    rw [if_neg (by simp [DecState.remaining] at hrem hav ⊢; omega)]
    show (if _ then _ else _) = _
    rw [if_pos (by simpa using hlast)]

/-- Witness for C9: the bytes `00 00 00 00` decode to the empty string (and
the final position is right after the prefix), while `01 00 00 00 41` (a
1-byte string whose stored byte is not NUL) fails with the
missing-terminator error. -/
theorem C9_empty_string_decode_witness :
    decode_string ⟨[0, 0, 0, 0], 0, 4⟩ "p" = .ok ("", ⟨[0, 0, 0, 0], 4, 4⟩) ∧
    decode_string ⟨[1, 0, 0, 0, 65], 0, 4⟩ "p" =
      .error ("string missing null terminator at " ++ "p") :=
  ⟨C9_empty_string_decode.1 ⟨[0, 0, 0, 0], 0, 4⟩ ⟨[0, 0, 0, 0], 0, 4⟩ "p" rfl
      (by decide) rfl,
   C9_empty_string_decode.2 ⟨[1, 0, 0, 0, 65], 0, 4⟩ ⟨[1, 0, 0, 0, 65], 0, 4⟩ "p" 1 rfl
      (by decide) rfl (by decide) (by decide) (by decide)⟩

/-- The `find_by_suffix` loop returns, for an empty accumulator, the unique
suffix-matching key when exactly one exists and `none` otherwise (zero
matches and two-or-more matches are indistinguishable). -/
theorem find_by_suffix_loop_spec (keys : List (List String)) (w : List String)
    (found : Option (List String)) :
    find_by_suffix_loop keys w found =
      match found, keys.filter (sfx w) with
      | some f, [] => some f
      | some _, _ :: _ => none
      | none, [k] => some k
      | none, _ => none := by
  induction keys generalizing found with
  | nil => cases found <;> rfl
  | cons key rest ih =>
    unfold find_by_suffix_loop
    by_cases hlen : key.length < w.length
    · rw [if_pos hlen, ih]
      have hs : sfx w key = false := by simp [sfx, hlen]
      simp [hs]
    · by_cases hdrop : (key.drop (key.length - w.length) == w) = true
      · have hs : sfx w key = true := by simp [sfx, hlen, hdrop]
        have hfil : (key :: rest).filter (sfx w) = key :: rest.filter (sfx w) := by
          simp [hs]
        cases found with
        | some f =>
          rw [if_neg hlen, if_pos hdrop, hfil]
        | none =>
          rw [if_neg hlen, if_pos hdrop, ih, hfil]
          rcases rest.filter (sfx w) with _ | ⟨a, l⟩ <;> rfl
      · rw [if_neg hlen, if_neg hdrop, ih]
        have hs : sfx w key = false := by simp [sfx, hlen, hdrop]
        simp [hs]

/-- `find_by_suffix` in terms of the suffix filter on the key list. -/
theorem find_by_suffix_spec {α : Type} (m : List (List String × α))
    (w : List String) :
    find_by_suffix m w =
      match (m.map Prod.fst).filter (sfx w) with
      | [k] => some k
      | _ => none := by
  unfold find_by_suffix
  rw [find_by_suffix_loop_spec]
  rcases (m.map Prod.fst).filter (sfx w) with _ | ⟨a, _ | ⟨b, l⟩⟩ <;> rfl

/-- Claim C5 (amended): resolution of a `Scoped` reference first locally
qualifies a single-segment name with the enclosing module (the struct name
minus its last segment) and prefers an exact match on that candidate
(structs before enums) over any suffix match; with no exact match it looks
for a key whose trailing segments equal the **candidate** among the struct
keys, and a unique match wins; when the struct suffix match is ambiguous
(two or more keys) or empty it falls through — identically in both cases —
to the same search over enum keys; when that also fails the error is the
single plain `unresolved type '…' in '…'` message: ambiguity is treated
exactly like no match and no distinct "ambiguous" error exists. -/
theorem C5_suffix_resolution (name cur : List String)
    (structs : List (List String × StructDef))
    (enums : List (List String × EnumDef)) :
    (alContains structs (localCandidate name cur) = true →
      resolve_type_expr (.scoped name) cur structs enums =
        .ok (.strct (localCandidate name cur))) ∧
    (alContains structs (localCandidate name cur) = false →
      alContains enums (localCandidate name cur) = true →
      resolve_type_expr (.scoped name) cur structs enums =
        .ok (.enum (localCandidate name cur))) ∧
    (∀ k, alContains structs (localCandidate name cur) = false →
      alContains enums (localCandidate name cur) = false →
      (structs.map Prod.fst).filter (sfx (localCandidate name cur)) = [k] →
      resolve_type_expr (.scoped name) cur structs enums = .ok (.strct k)) ∧
    (∀ k, alContains structs (localCandidate name cur) = false →
      alContains enums (localCandidate name cur) = false →
      ((structs.map Prod.fst).filter (sfx (localCandidate name cur))).length ≠ 1 →
      (enums.map Prod.fst).filter (sfx (localCandidate name cur)) = [k] →
      resolve_type_expr (.scoped name) cur structs enums = .ok (.enum k)) ∧
    (alContains structs (localCandidate name cur) = false →
      alContains enums (localCandidate name cur) = false →
      ((structs.map Prod.fst).filter (sfx (localCandidate name cur))).length ≠ 1 →
      ((enums.map Prod.fst).filter (sfx (localCandidate name cur))).length ≠ 1 →
      resolve_type_expr (.scoped name) cur structs enums =
        .error (unresolvedMsg name cur)) := by
  have hresolve : resolve_type_expr (.scoped name) cur structs enums =
      (let candidate := localCandidate name cur
       if alContains structs candidate then .ok (.strct candidate)
       else if alContains enums candidate then .ok (.enum candidate)
       else
         match find_by_suffix structs candidate with
         | some found => .ok (.strct found)
         | none =>
           match find_by_suffix enums candidate with
           | some found => .ok (.enum found)
           | none => .error (unresolvedMsg name cur)) := by
    unfold resolve_type_expr localCandidate
    rfl
  refine ⟨fun h1 => ?_, fun h1 h2 => ?_, fun k h1 h2 h3 => ?_,
    fun k h1 h2 h3 h4 => ?_, fun h1 h2 h3 h4 => ?_⟩ <;> rw [hresolve]
  · simp [h1]
  · simp [h1, h2]
  · simp only [h1, h2, Bool.false_eq_true, if_false]
    rw [find_by_suffix_spec, h3]
  · simp only [h1, h2, Bool.false_eq_true, if_false]
    rw [find_by_suffix_spec structs, find_by_suffix_spec enums, h4]
    rcases hfs : (structs.map Prod.fst).filter (sfx (localCandidate name cur)) with
      _ | ⟨a, _ | ⟨b, l⟩⟩
    · rfl
    · rw [hfs] at h3; simp at h3
    · rfl
  · simp only [h1, h2, Bool.false_eq_true, if_false]
    rw [find_by_suffix_spec structs, find_by_suffix_spec enums]
    rcases hfs : (structs.map Prod.fst).filter (sfx (localCandidate name cur)) with
      _ | ⟨a, _ | ⟨b, l⟩⟩ <;>
      rcases hfe : (enums.map Prod.fst).filter (sfx (localCandidate name cur)) with
        _ | ⟨c, _ | ⟨d, l2⟩⟩ <;>
      first
        | rfl
        | (rw [hfs] at h3; simp at h3; done)
        | (rw [hfe] at h4; simp at h4)

/-- Counterexample for C5: with struct keys `a::X` and `b::X` and enum key
`c::X`, the single-segment reference `X` inside struct `S` has several
suffix-matching keys, yet the resolver does not fail with an
"unresolved (ambiguous)" error — the ambiguous struct search is treated as
no match and the reference resolves to the enum `c::X`. -/
theorem C5_suffix_resolution_counterexample :
    resolve_type_expr (.scoped ["X"]) ["S"]
      [(["a", "X"], ⟨["a", "X"], []⟩), (["b", "X"], ⟨["b", "X"], []⟩)]
      [(["c", "X"], ⟨["c", "X"], ["V"]⟩)]
    = .ok (.enum ["c", "X"]) := rfl

/-- Witness for C5: a unique struct suffix match resolves (part 3), and the
plain unresolved error also covers the ambiguous case (part 5). -/
theorem C5_suffix_resolution_witness :
    resolve_type_expr (.scoped ["Y"]) ["S"]
      [(["p", "Y"], ⟨["p", "Y"], []⟩)] [] = .ok (.strct ["p", "Y"]) ∧
    resolve_type_expr (.scoped ["Z"]) ["S"]
      [(["a", "Z"], ⟨["a", "Z"], []⟩), (["b", "Z"], ⟨["b", "Z"], []⟩)] [] =
      .error (unresolvedMsg ["Z"] ["S"]) :=
  ⟨(C5_suffix_resolution ["Y"] ["S"] _ _).2.2.1 ["p", "Y"] (by decide) (by decide)
      (by decide),
   (C5_suffix_resolution ["Z"] ["S"] _ _).2.2.2.2 (by decide) (by decide)
      (by decide) (by decide)⟩

/-- The scalar path of the appender: a `ValueTypeError` from
`scalar_value_for_datatype` aborts `append_value_to_builder` with that
error, for any builder. -/
theorem append_scalar_path_error (b : Arr) (dt : ADT) (v : Value)
    (e : ValueTypeError) (h : scalar_value_for_datatype dt v = .error e) :
    append_value_to_builder b dt v = .error (.vt e) := by
  unfold append_value_to_builder
  rw [h]
  rfl

set_option maxHeartbeats 1600000 in
/-- On a non-Null leaf data type, a non-Null value of the wrong variant
makes `scalar_value_for_datatype` fail with the two variant names. -/
theorem scalar_mismatch_error (dt : ADT) (v : Value) (hdt : dt ≠ .null)
    (hleaf : dt.isLeaf = true) (hv : v ≠ .null)
    (hm : variant_matches dt v = false) :
    scalar_value_for_datatype dt v =
      .error ⟨expected_variant dt, v.variant_name⟩ := by
  cases dt <;> simp only [ADT.isLeaf] at hleaf <;> try exact absurd rfl hdt
  all_goals
    cases v <;>
      simp_all [scalar_value_for_datatype, variant_matches, expected_variant,
        Value.variant_name, Value.type_mismatch, Value.try_bool, Value.try_i8,
        Value.try_i16, Value.try_i32, Value.try_i64, Value.try_u8, Value.try_u16,
        Value.try_u32, Value.try_u64, Value.try_f32, Value.try_f64, Value.try_str,
        Value.try_bytes, Bind.bind, Except.bind]

/-- `List`-typed append rejects a non-Null, non-List value with
`ValueType{List, actual}`. -/
theorem append_list_mismatch (child : Arr) (offsets : List Nat)
    (validity : List Bool) (inm : String) (idt : ADT) (inb : Bool) (v : Value)
    (hv : v ≠ .null) (hm : variant_matches (.list (.mk inm idt inb)) v = false) :
    append_value_to_builder (.listA child offsets validity)
        (.list (.mk inm idt inb)) v = .error (.vt (v.type_mismatch "List")) := by
  unfold append_value_to_builder
  cases v <;> simp_all [scalar_value_for_datatype, liftVT, variant_matches,
    Value.type_mismatch, Value.variant_name, Bind.bind, Except.bind]

/-- `FixedSizeList`-typed append rejects a non-Null, non-Array value with
`ValueType{Array, actual}`. -/
theorem append_fsl_mismatch (child : Arr) (bsize size : Nat)
    (validity : List Bool) (inm : String) (idt : ADT) (inb : Bool) (v : Value)
    (hv : v ≠ .null)
    (hm : variant_matches (.fixedSizeList (.mk inm idt inb) size) v = false) :
    append_value_to_builder (.fslA child bsize validity)
        (.fixedSizeList (.mk inm idt inb) size) v =
      .error (.vt (v.type_mismatch "Array")) := by
  unfold append_value_to_builder
  cases v <;> simp_all [scalar_value_for_datatype, liftVT, variant_matches,
    Value.type_mismatch, Value.variant_name, Bind.bind, Except.bind]

/-- `Struct`-typed append rejects a non-Null, non-Struct value with
`ValueType{Struct, actual}`. -/
theorem append_struct_mismatch (bf fields : List AField)
    (children : List Arr) (validity : List Bool) (v : Value)
    (hv : v ≠ .null) (hm : variant_matches (.strct fields) v = false) :
    append_value_to_builder (.structA bf children validity) (.strct fields) v =
      .error (.vt (v.type_mismatch "Struct")) := by
  unfold append_value_to_builder
  cases v <;> simp_all [scalar_value_for_datatype, liftVT, variant_matches,
    Value.type_mismatch, Value.variant_name, Bind.bind, Except.bind]

/-- `Map`-typed append (with a well-formed two-field entry struct) rejects
a non-Null, non-Map value with `ValueType{Map, actual}`. -/
theorem append_map_mismatch (kb vb : Arr) (offsets : List Nat)
    (validity : List Bool) (en kn vn : String) (kdt vdt : ADT)
    (enl knl vnl sorted : Bool) (v : Value) (hv : v ≠ .null)
    (hm : variant_matches
      (.map (.mk en (.strct [.mk kn kdt knl, .mk vn vdt vnl]) enl) sorted) v = false) :
    append_value_to_builder (.mapA kb vb offsets validity)
        (.map (.mk en (.strct [.mk kn kdt knl, .mk vn vdt vnl]) enl) sorted) v =
      .error (.vt (v.type_mismatch "Map")) := by
  unfold append_value_to_builder
  cases v <;> simp_all [scalar_value_for_datatype, liftVT, variant_matches,
    Value.type_mismatch, Value.variant_name, Bind.bind, Except.bind]

/-- Claim C1 (amended): for every **non-Null** Arrow body data type and
every non-Null value whose variant does not match that type, appending
through a builder made for the type fails with
`ValueType{expected, actual}` carrying the two variant names — it never
silently appends a null.  (The amendment excludes `DataType::Null`
columns: `scalar_value_for_datatype` maps the `Null` data type to the null
scalar unconditionally, so any value appends a null there, see the
counterexample.) -/
theorem C1_mismatch_value_type :
    ∀ (dt : ADT) (b : Arr) (v : Value),
      dt ≠ .null → make_builder dt = .ok b → v ≠ .null →
      variant_matches dt v = false →
      append_value_to_builder b dt v =
        .error (.vt ⟨expected_variant dt, v.variant_name⟩) := by
  intro dt b v hdt hb hv hm
  cases dt
  case null => exact absurd rfl hdt
  case list item =>
    obtain ⟨inm, idt, inb⟩ := item
    simp only [make_builder, Bind.bind, Except.bind] at hb
    rcases hmb : make_builder idt with e | child <;> rw [hmb] at hb
    · simp at hb
    · cases hb
      exact append_list_mismatch child [0] [] inm idt inb v hv hm
  case fixedSizeList item size =>
    obtain ⟨inm, idt, inb⟩ := item
    simp only [make_builder, Bind.bind, Except.bind] at hb
    rcases hmb : make_builder idt with e | child <;> rw [hmb] at hb
    · simp at hb
    · cases hb
      exact append_fsl_mismatch child size size [] inm idt inb v hv hm
  case strct fields =>
    simp only [make_builder, Bind.bind, Except.bind] at hb
    rcases hmc : makeChildBuilders fields with e | children <;> rw [hmc] at hb
    · simp at hb
    · cases hb
      exact append_struct_mismatch fields fields children [] v hv hm
  case map entry sorted =>
    obtain ⟨ename, edt, enull⟩ := entry
    cases edt
    case strct efs =>
      rcases efs with _ | ⟨⟨kn, kdt, knl⟩, _ | ⟨⟨vn, vdt, vnl⟩, _ | ⟨f3, rest⟩⟩⟩
      · simp [make_builder] at hb
      · simp [make_builder] at hb
      · simp only [make_builder, Bind.bind, Except.bind] at hb
        rcases hkb : make_builder kdt with e | kb <;> rw [hkb] at hb
        · simp at hb
        · rcases hvb : make_builder vdt with e | vb <;> rw [hvb] at hb
          · simp at hb
          · cases hb
            exact append_map_mismatch kb vb [0] [] ename kn vn kdt vdt enull knl
              vnl sorted v hv hm
      · simp [make_builder] at hb
    all_goals simp [make_builder] at hb
  all_goals
    exact append_scalar_path_error b _ v _
      (scalar_mismatch_error _ v hdt rfl hv hm)

/-- Counterexample for C1: a `Null`-typed body column accepts the
mismatched non-Null scalar `I32 42` and silently appends a null instead of
failing with a `ValueType` error. -/
theorem C1_mismatch_value_type_counterexample :
    build_array_from_values .null [.i32 42] = .ok (.nullA 1) := by
  simp [build_array_from_values, make_builder, append_items,
    append_value_to_builder, scalar_value_for_datatype, liftVT,
    append_scalar_dyn, Bind.bind, Except.bind]

/-- Witness for C1: a `String` value against an `Int32` column fails with
`ValueType{expected: I32, actual: String}`. -/
theorem C1_mismatch_value_type_witness :
    append_value_to_builder (.int32A []) .int32 (.string "x") =
      .error (.vt ⟨"I32", "String"⟩) :=
  C1_mismatch_value_type .int32 (.int32A []) (.string "x")
    (fun h => ADT.noConfusion h) rfl (fun h => Value.noConfusion h) rfl

/-- Claim C10: surplus `Struct` children are silently ignored: appending a
`Struct` value whose child list carries extra values beyond the expected
field count behaves exactly like appending the truncated value, both at a
nested `Struct` node and at the root (`extract_field`); no error is raised
for surplus children. -/
theorem C10_surplus_children_ignored :
    (∀ (fields : List AField) (b : Arr) (cs extra : List Value),
        cs.length = fields.length →
        append_value_to_builder b (.strct fields) (.strct (cs ++ extra)) =
          append_value_to_builder b (.strct fields) (.strct cs)) ∧
    (∀ (cs extra : List Value) (i : Nat), i < cs.length →
        extract_field (.strct (cs ++ extra)) i = extract_field (.strct cs) i) := by
  have hfields : ∀ (fields : List AField) (bs : List Arr) (i : Nat)
      (cs extra : List Value), i + fields.length ≤ cs.length →
      append_struct_fields bs fields i (cs ++ extra) =
        append_struct_fields bs fields i cs := by
    intro fields
    induction fields with
    | nil => intro bs i cs extra _; unfold append_struct_fields; rfl
    | cons f frest ih =>
      intro bs i cs extra hlen
      obtain ⟨fn, fdt, fnl⟩ := f
      cases bs with
      | nil => unfold append_struct_fields; rfl
      | cons b brest =>
        unfold append_struct_fields
        simp only [List.getD_append _ _ _ _ (by simp at hlen; omega : i < cs.length),
          ih brest (i + 1) cs extra (by simp at hlen ⊢; omega)]
  constructor
  · intro fields b cs extra hlen
    unfold append_value_to_builder
    cases b <;> try rfl
    case structA bf children validity =>
      show (liftVT (.ok none) >>= _) = (liftVT (.ok none) >>= _)
      simp only [liftVT, Bind.bind, Except.bind]
      rw [hfields fields children 0 cs extra (by omega)]
  · intro cs extra i hi
    show Except.ok ((cs ++ extra).getD i Value.null) = Except.ok (cs.getD i Value.null)
    rw [List.getD_append _ _ _ _ hi]

/-- Witness for C10: with one expected field, the surplus child
`String "x"` changes nothing, at the struct node and at the root. -/
theorem C10_surplus_children_ignored_witness :
    append_value_to_builder (.structA [.mk "a" .int32 true] [.int32A []] [])
        (.strct [.mk "a" .int32 true]) (.strct [.i32 5, .string "x"]) =
      append_value_to_builder (.structA [.mk "a" .int32 true] [.int32A []] [])
        (.strct [.mk "a" .int32 true]) (.strct [.i32 5]) ∧
    extract_field (.strct [.i32 5, .string "x"]) 0 = extract_field (.strct [.i32 5]) 0 :=
  ⟨C10_surplus_children_ignored.1 [.mk "a" .int32 true]
      (.structA [.mk "a" .int32 true] [.int32A []] []) [.i32 5] [.string "x"] rfl,
   C10_surplus_children_ignored.2 [.i32 5] [.string "x"] 0 (by decide)⟩

/-- Inversion of a successful `Except` bind. -/
theorem except_bind_ok_inv {α β ε : Type} {x : Except ε α} {g : α → Except ε β}
    {b : β} (h : (x >>= g) = .ok b) : ∃ a, x = .ok a ∧ g a = .ok b := by
  cases x with
  | ok a => exact ⟨a, rfl, h⟩
  | error e => simp [Bind.bind, Except.bind] at h

/-- An unset slot means `get_field` substitutes the per-field proto
default. -/
theorem get_field_of_unset (msg : PDynamicMessage) (i : Nat)
    (fd : PFieldDescriptor) (h : has_field msg i = false) :
    get_field msg i fd = defaultForField fd := by
  obtain ⟨slots⟩ := msg
  simp only [has_field] at h
  have h2 : slots.getD i none = none := by
    cases hslot : slots.getD i none with
    | none => rfl
    | some v => rw [hslot] at h; simp at h
  show (slots.getD i none).getD (defaultForField fd) = defaultForField fd
  rw [h2]
  rfl

/-- Field loop of `message_to_value` under `PresenceAware`: a
presence-supporting unset field yields `Value::Null` at its position. -/
theorem message_fields_loop_presence :
    ∀ (fields : List PFieldDescriptor) (fuel : Nat) (msg : PDynamicMessage)
      (i0 : Nat) (vals : List Value),
      message_fields_loop fuel msg fields i0 .presenceAware = .ok vals →
      ∀ j fd, fields.get? j = some fd → fd.supports_presence = true →
        has_field msg (i0 + j) = false → vals.get? j = some .null := by
  intro fields
  induction fields with
  | nil =>
    intro fuel msg i0 vals h j fd hj
    simp at hj
  | cons f frest ih =>
    intro fuel msg i0 vals h j fd hj hsp hhf
    match fuel with
    | 0 => simp [message_fields_loop] at h
    | fuel + 1 =>
      rw [message_fields_loop] at h
      by_cases hc : (PresencePolicy.presenceAware = PresencePolicy.presenceAware ∧
          f.supports_presence = true ∧ ¬ has_field msg i0 = true)
      · rw [if_pos hc] at h
        obtain ⟨v, hv, h⟩ := except_bind_ok_inv h
        obtain ⟨vs, hvs, h⟩ := except_bind_ok_inv h
        cases hv
        simp only [Except.ok.injEq] at h
        subst h
        cases j with
        | zero => rfl
        | succ j =>
          simp only [List.get?] at hj ⊢
          exact ih fuel msg (i0 + 1) vs hvs j fd hj hsp
            (by rw [show i0 + 1 + j = i0 + (j + 1) by omega]; exact hhf)
      · rw [if_neg hc] at h
        obtain ⟨v, hv, h⟩ := except_bind_ok_inv h
        obtain ⟨vs, hvs, h⟩ := except_bind_ok_inv h
        simp only [Except.ok.injEq] at h
        subst h
        cases j with
        | zero =>
          simp only [List.get?] at hj
          cases hj
          exact absurd ⟨rfl, hsp, by simpa using hhf⟩ hc
        | succ j =>
          simp only [List.get?] at hj ⊢
          exact ih fuel msg (i0 + 1) vs hvs j fd hj hsp
            (by rw [show i0 + 1 + j = i0 + (j + 1) by omega]; exact hhf)

/-- Field loop of `message_to_value` under `AlwaysDefault`: an unset field
yields the conversion of its proto default value at its position. -/
theorem message_fields_loop_default :
    ∀ (fields : List PFieldDescriptor) (fuel : Nat) (msg : PDynamicMessage)
      (i0 : Nat) (vals : List Value),
      message_fields_loop fuel msg fields i0 .alwaysDefault = .ok vals →
      ∀ j fd, fields.get? j = some fd → has_field msg (i0 + j) = false →
        ∃ f2 v, proto_value_to_value f2 (defaultForField fd) fd.kind .alwaysDefault
          = .ok v ∧ vals.get? j = some v := by
  intro fields
  induction fields with
  | nil =>
    intro fuel msg i0 vals h j fd hj
    simp at hj
  | cons f frest ih =>
    intro fuel msg i0 vals h j fd hj hhf
    match fuel with
    | 0 => simp [message_fields_loop] at h
    | fuel + 1 =>
      rw [message_fields_loop] at h
      rw [if_neg (by simp)] at h
      obtain ⟨v, hv, h⟩ := except_bind_ok_inv h
      obtain ⟨vs, hvs, h⟩ := except_bind_ok_inv h
      simp only [Except.ok.injEq] at h
      subst h
      cases j with
      | zero =>
        simp only [List.get?] at hj
        cases hj
        rw [get_field_of_unset msg i0 f (by simpa using hhf)] at hv
        exact ⟨fuel, v, hv, rfl⟩
      | succ j =>
        simp only [List.get?] at hj ⊢
        exact ih fuel msg (i0 + 1) vs hvs j fd hj
          (by rw [show i0 + 1 + j = i0 + (j + 1) by omega]; exact hhf)

/-- Claim C4: under `PresenceAware`, every presence-supporting unset field
decodes to `Value::Null` and derives `nullable = supports_presence` in the
schema; under `AlwaysDefault`, every field derives `nullable = false` and
an unset field decodes to the proto default value.  In particular, for
`message Opt { optional int32 count = 1; }` the empty payload decodes to
`Struct[Null]` under `PresenceAware` and `Struct[I32 0]` under
`AlwaysDefault`. -/
theorem C4_presence_policy :
    (∀ (fuel : Nat) (msg : PDynamicMessage) (desc : PMessageDescriptor)
        (children : List Value) (j : Nat) (fd : PFieldDescriptor),
        message_to_value fuel msg desc .presenceAware = .ok (.strct children) →
        desc.fields.get? j = some fd →
        fd.supports_presence = true →
        has_field msg j = false →
        children.get? j = some .null) ∧
    (∀ (sn : String) (fd : PFieldDescriptor) (policy : PresencePolicy)
        (f : FieldDef), field_descriptor_to_field_def sn fd policy = .ok f →
        f.nullable = (match policy with
          | .alwaysDefault => false
          | .presenceAware => fd.supports_presence)) ∧
    (∀ (fuel : Nat) (msg : PDynamicMessage) (desc : PMessageDescriptor)
        (children : List Value) (j : Nat) (fd : PFieldDescriptor),
        message_to_value fuel msg desc .alwaysDefault = .ok (.strct children) →
        desc.fields.get? j = some fd →
        has_field msg j = false →
        ∃ f2 v, proto_value_to_value f2 (defaultForField fd) fd.kind .alwaysDefault
          = .ok v ∧ children.get? j = some v) ∧
    (message_to_value 3 (emptyDynamicMessage optDesc) optDesc .presenceAware =
        .ok (.strct [.null]) ∧
      message_to_value 3 (emptyDynamicMessage optDesc) optDesc .alwaysDefault =
        .ok (.strct [.i32 0]) ∧
      field_descriptor_to_field_def "Opt" optCountFd .presenceAware =
        .ok (.mk "count" (.mk .i32 true)) ∧
      field_descriptor_to_field_def "Opt" optCountFd .alwaysDefault =
        .ok (.mk "count" (.mk .i32 false))) := by
  have hmsg : ∀ (fuel : Nat) (msg : PDynamicMessage) (desc : PMessageDescriptor)
      (policy : PresencePolicy) (children : List Value),
      message_to_value fuel msg desc policy = .ok (.strct children) →
      message_fields_loop (fuel - 1) msg desc.fields 0 policy = .ok children := by
    intro fuel msg desc policy children h
    match fuel with
    | 0 => simp [message_to_value] at h
    | fuel + 1 =>
      obtain ⟨dn, dfields, dmap⟩ := desc
      rw [message_to_value] at h
      rcases hl : message_fields_loop fuel msg dfields 0 policy with e | vs <;>
        rw [hl] at h <;> simp [Bind.bind, Except.bind] at h
      rw [show (fuel + 1) - 1 = fuel by omega]
      simpa [PMessageDescriptor.fields, h] using hl
  refine ⟨?_, ?_, ?_, rfl, rfl, ?_, ?_⟩
  · intro fuel msg desc children j fd h hj hsp hhf
    exact message_fields_loop_presence desc.fields (fuel - 1) msg 0 children
      (hmsg fuel msg desc .presenceAware children h) j fd hj hsp
      (by simpa using hhf)
  · intro sn fd policy f h
    unfold field_descriptor_to_field_def at h
    obtain ⟨inner, hk, h⟩ := except_bind_ok_inv h
    obtain ⟨dt, hdt, h⟩ := except_bind_ok_inv h
    simp only [Except.ok.injEq] at h
    subst h
    cases policy <;> rfl
  · intro fuel msg desc children j fd h hj hhf
    exact message_fields_loop_default desc.fields (fuel - 1) msg 0 children
      (hmsg fuel msg desc .alwaysDefault children h) j fd hj
      (by simpa using hhf)
  · simp [field_descriptor_to_field_def, kind_to_data_type_def, field_dt_for,
      optCountFd, PFieldDescriptor.name, PFieldDescriptor.kind,
      PFieldDescriptor.is_list, PFieldDescriptor.is_map,
      PFieldDescriptor.supports_presence, Bind.bind, Except.bind]
  · simp [field_descriptor_to_field_def, kind_to_data_type_def, field_dt_for,
      optCountFd, PFieldDescriptor.name, PFieldDescriptor.kind,
      PFieldDescriptor.is_list, PFieldDescriptor.is_map,
      PFieldDescriptor.supports_presence, Bind.bind, Except.bind]

/-- Witness for C4: the unset `optional int32 count` of `Opt` decodes to
`Null` at its position under `PresenceAware`, and its derived nullability
equals `supports_presence`. -/
theorem C4_presence_policy_witness :
    [Value.null].get? 0 = some Value.null ∧
    (FieldDef.mk "count" (ElementDef.mk .i32 true)).nullable =
      optCountFd.supports_presence :=
  ⟨C4_presence_policy.1 3 (emptyDynamicMessage optDesc) optDesc [Value.null] 0
      optCountFd C4_presence_policy.2.2.2.1 rfl rfl rfl,
   C4_presence_policy.2.1 "Opt" optCountFd .presenceAware
      (FieldDef.mk "count" (ElementDef.mk .i32 true))
      C4_presence_policy.2.2.2.2.2.1⟩

/-- Successful timestamp-cell conversion is the identity embedding of the
times. -/
theorem timestampCells_ok :
    ∀ (ts : List Nat) (w : String) (cs : List (Option Int)),
      timestampCells ts w = .ok cs →
      cs = List.map (fun t : Nat => (some (t : Int) : Option Int)) ts := by
  intro ts w
  induction ts with
  | nil => intro cs h; cases h; rfl
  | cons t rest ih =>
    intro cs h
    unfold timestampCells at h ih
    rw [List.mapM_cons] at h
    by_cases ht : t ≤ I64_MAX
    · rw [if_pos ht] at h
      obtain ⟨_, hhd, h⟩ := except_bind_ok_inv h
      obtain ⟨tl, htl, h⟩ := except_bind_ok_inv h
      cases hhd
      simp only [pure, Except.pure, Except.ok.injEq] at h
      subst h
      rw [ih tl htl]
      rfl
    · rw [if_neg ht] at h
      simp [Bind.bind, Except.bind] at h

/-- A timestamp-cell conversion failure is always the overflow panic. -/
theorem timestampCells_error :
    ∀ (ts : List Nat) (w : String) (e : ArrowConvertError),
      timestampCells ts w = .error e → ∃ m, e = .panicE m := by
  intro ts w
  induction ts with
  | nil => intro e h; cases h
  | cons t rest ih =>
    intro e h
    unfold timestampCells at h ih
    rw [List.mapM_cons] at h
    by_cases ht : t ≤ I64_MAX
    · rw [if_pos ht] at h
      rcases htl : rest.mapM (fun t => if t ≤ I64_MAX then Except.ok (some (t : Int))
          else Except.error (ArrowConvertError.panicE (w ++ " exceeds i64::MAX")))
        with e2 | tl <;> rw [htl] at h
      · simp only [Bind.bind, Except.bind, Except.error.injEq] at h
        subst h
        exact ih e2 htl
      · simp [Bind.bind, Except.bind, pure, Except.pure] at h
    · rw [if_neg ht] at h
      simp only [Bind.bind, Except.bind, Except.error.injEq] at h
      exact ⟨_, h.symm⟩

/-- `liftAppend` never produces `EmptyRows`. -/
theorem liftAppend_error {α : Type} (x : Except AppendErr α)
    (e : ArrowConvertError) (h : liftAppend x = .error e) :
    e ≠ .emptyRows := by
  rcases x with ea | a
  · cases ea <;> cases h <;> intro hc <;> cases hc
  · cases h

/-- `record_batch_try_new` succeeds only with the given fields and
columns. -/
theorem record_batch_try_new_ok (fields : List AField) (cols : List Arr)
    (batch : RecordBatch) (h : record_batch_try_new fields cols = .ok batch) :
    batch = ⟨fields, cols⟩ := by
  unfold record_batch_try_new at h
  repeat' split at h
  all_goals first | (cases h; rfl) | cases h

/-- Inversion of a successful row-to-batch conversion: the rows are
non-empty and the batch is the timestamp columns (straight from the row
metadata) followed by the body columns. -/
theorem try_arrow_ok_inv (body : List AField) (rows : List DecodedMessage)
    (batch : RecordBatch)
    (h : try_arrow_value_rows_to_record_batch body rows = .ok batch) :
    rows ≠ [] ∧ ∃ bodyCols, build_body_columns rows body 0 = .ok bodyCols ∧
      batch = ⟨with_timestamp_fields body,
        .tsA (rows.map fun r => some (r.log_time : Int)) ::
          .tsA (rows.map fun r => some (r.publish_time : Int)) :: bodyCols⟩ := by
  unfold try_arrow_value_rows_to_record_batch at h
  by_cases he : rows.isEmpty = true
  · rw [if_pos he] at h; cases h
  · rw [if_neg he] at h
    obtain ⟨lt, hlt, h⟩ := except_bind_ok_inv h
    obtain ⟨pt, hpt, h⟩ := except_bind_ok_inv h
    obtain ⟨bodyCols, hbody, h⟩ := except_bind_ok_inv h
    refine ⟨by simpa [List.isEmpty_iff] using he, bodyCols, hbody, ?_⟩
    rcases htn : record_batch_try_new (with_timestamp_fields body)
        (.tsA lt :: .tsA pt :: bodyCols) with e | b <;> rw [htn] at h
    · cases h
    · cases h
      have := record_batch_try_new_ok _ _ _ htn
      rw [this, timestampCells_ok _ _ _ hlt, timestampCells_ok _ _ _ hpt,
        List.map_map, List.map_map]
      rfl

/-- Per-field body-column correspondence of `build_body_columns`. -/
theorem build_body_columns_get :
    ∀ (fields : List AField) (rows : List DecodedMessage) (i0 : Nat)
      (cols : List Arr), build_body_columns rows fields i0 = .ok cols →
      ∀ j f, fields.get? j = some f → ∃ vals arr,
        liftAppend (rows.mapM fun r => extract_field r.value (i0 + j)) = .ok vals ∧
        liftAppend (build_array_from_values f.dt vals) = .ok arr ∧
        cols.get? j = some arr := by
  intro fields
  induction fields with
  | nil => intro rows i0 cols h j f hj; simp at hj
  | cons f0 frest ih =>
    intro rows i0 cols h j f hj
    unfold build_body_columns at h
    obtain ⟨vals, hvals, h⟩ := except_bind_ok_inv h
    obtain ⟨arr, harr, h⟩ := except_bind_ok_inv h
    obtain ⟨more, hmore, h⟩ := except_bind_ok_inv h
    simp only [Except.ok.injEq] at h
    subst h
    cases j with
    | zero =>
      simp only [List.get?] at hj
      cases hj
      exact ⟨vals, arr, by simpa using hvals, harr, rfl⟩
    | succ j =>
      simp only [List.get?] at hj ⊢
      have := ih rows (i0 + 1) more hmore j f hj
      rwa [show i0 + 1 + j = i0 + (j + 1) by omega] at this

/-- Claim C2: every successfully emitted record batch has column order
`[@log_time, @publish_time, body_0, body_1, …]`: the two prepended columns
are named `@log_time` / `@publish_time`, typed
`Timestamp(Nanosecond, tz="+00:00")`, non-nullable, and filled from each
row's `log_time` / `publish_time` metadata (not from the `Value` tree); the
body columns follow in field order, each built from the extracted field
values. -/
theorem C2_batch_layout :
    ∀ (body : List AField) (rows : List DecodedMessage) (batch : RecordBatch),
      try_arrow_value_rows_to_record_batch body rows = .ok batch →
      rows ≠ [] ∧
      batch.fields =
        .mk "@log_time" (.timestamp (some "+00:00")) false ::
          .mk "@publish_time" (.timestamp (some "+00:00")) false :: body ∧
      (∃ bodyCols, build_body_columns rows body 0 = .ok bodyCols ∧
        batch.columns =
          .tsA (rows.map fun r => some (r.log_time : Int)) ::
            .tsA (rows.map fun r => some (r.publish_time : Int)) :: bodyCols) ∧
      (∀ j f, body.get? j = some f → ∃ vals arr,
        liftAppend (rows.mapM fun r => extract_field r.value j) = .ok vals ∧
        liftAppend (build_array_from_values f.dt vals) = .ok arr ∧
        batch.columns.get? (j + 2) = some arr) := by
  intro body rows batch h
  obtain ⟨hne, bodyCols, hbody, hb⟩ := try_arrow_ok_inv body rows batch h
  subst hb
  refine ⟨hne, rfl, ⟨bodyCols, hbody, rfl⟩, ?_⟩
  intro j f hj
  obtain ⟨vals, arr, hvals, harr, hcol⟩ :=
    build_body_columns_get body rows 0 bodyCols hbody j f hj
  exact ⟨vals, arr, by simpa using hvals, harr, by simpa using hcol⟩

/-- Witness for C2: a one-row batch over body `[a: Int32]` carries the two
timestamp columns from the metadata and the body column at position 2. -/
theorem C2_batch_layout_witness :
    ([⟨1, 10, .strct [.i32 5]⟩] : List DecodedMessage) ≠ [] ∧
    (RecordBatch.mk
      [.mk "@log_time" (.timestamp (some "+00:00")) false,
       .mk "@publish_time" (.timestamp (some "+00:00")) false,
       .mk "a" .int32 true]
      [.tsA [some 1], .tsA [some 10], .int32A [some 5]]).fields =
      .mk "@log_time" (.timestamp (some "+00:00")) false ::
        .mk "@publish_time" (.timestamp (some "+00:00")) false ::
          [AField.mk "a" .int32 true] ∧
    (∃ bodyCols,
      build_body_columns [⟨1, 10, .strct [.i32 5]⟩] [.mk "a" .int32 true] 0 =
        .ok bodyCols ∧
      (RecordBatch.mk
        [.mk "@log_time" (.timestamp (some "+00:00")) false,
         .mk "@publish_time" (.timestamp (some "+00:00")) false,
         .mk "a" .int32 true]
        [.tsA [some 1], .tsA [some 10], .int32A [some 5]]).columns =
        .tsA (([⟨1, 10, .strct [.i32 5]⟩] : List DecodedMessage).map
            fun r => some (r.log_time : Int)) ::
          .tsA (([⟨1, 10, .strct [.i32 5]⟩] : List DecodedMessage).map
            fun r => some (r.publish_time : Int)) :: bodyCols) ∧
    (∀ j f, ([AField.mk "a" .int32 true] : List AField).get? j = some f →
      ∃ vals arr,
        liftAppend (([⟨1, 10, .strct [.i32 5]⟩] : List DecodedMessage).mapM
          fun r => extract_field r.value j) = .ok vals ∧
        liftAppend (build_array_from_values f.dt vals) = .ok arr ∧
        ([Arr.tsA [some 1], .tsA [some 10], .int32A [some 5]] : List Arr).get? (j + 2)
          = some arr) :=
  C2_batch_layout [.mk "a" .int32 true] [⟨1, 10, .strct [.i32 5]⟩] _ (by
    unfold try_arrow_value_rows_to_record_batch timestampCells build_body_columns
    simp only [List.isEmpty, Bind.bind, Except.bind, List.mapM, List.mapM.loop]
    simp [build_array_from_values, make_builder, append_items, AField.dt,
      append_value_to_builder, scalar_value_for_datatype, Value.try_i32, liftVT,
      liftAppend, append_scalar_dyn, extract_field, record_batch_try_new,
      with_timestamp_fields, Arr.len, I64_MAX, Bind.bind, Except.bind,
      build_body_columns, TIMESTAMP_TZ, pure, Except.pure])

/-- Body-column building never fails with `EmptyRows`: its only error
sources are the lifted appender errors. -/
theorem build_body_columns_error :
    ∀ (fields : List AField) (rows : List DecodedMessage) (i : Nat)
      (e : ArrowConvertError),
      build_body_columns rows fields i = .error e → e ≠ .emptyRows := by
  intro fields
  induction fields with
  | nil => intro rows i e h; cases h
  | cons f rest ih =>
    intro rows i e h
    unfold build_body_columns at h
    rcases h1 : liftAppend (rows.mapM fun r => extract_field r.value i)
      with e1 | vals <;> rw [h1] at h <;>
      simp only [Bind.bind, Except.bind] at h
    · cases h; exact liftAppend_error _ _ h1
    · rcases h2 : liftAppend (build_array_from_values f.dt vals)
        with e2 | arr <;> rw [h2] at h <;>
        simp only [Bind.bind, Except.bind] at h
      · cases h; exact liftAppend_error _ _ h2
      · rcases h3 : build_body_columns rows rest (i + 1)
          with e3 | more <;> rw [h3] at h <;>
          simp only [Bind.bind, Except.bind] at h
        · cases h; exact ih rows (i + 1) _ h3
        · cases h

/-- On a non-empty row list, the row appender never fails with
`EmptyRows`: every later error is a type mismatch or a panic. -/
theorem try_arrow_error_not_empty :
    ∀ (schema : List AField) (rows : List DecodedMessage)
      (e : ArrowConvertError), rows ≠ [] →
      try_arrow_value_rows_to_record_batch schema rows = .error e →
      e ≠ .emptyRows := by
  intro schema rows e hne h
  unfold try_arrow_value_rows_to_record_batch at h
  rw [if_neg (by simpa [List.isEmpty_iff] using hne)] at h
  rcases h1 : timestampCells (rows.map (·.log_time)) "log_time"
    with e1 | lt <;> rw [h1] at h <;>
    simp only [Bind.bind, Except.bind] at h
  · cases h
    obtain ⟨m, rfl⟩ := timestampCells_error _ _ _ h1
    intro hc; cases hc
  · rcases h2 : timestampCells (rows.map (·.publish_time)) "publish_time"
      with e2 | pt <;> rw [h2] at h <;>
      simp only [Bind.bind, Except.bind] at h
    · cases h
      obtain ⟨m, rfl⟩ := timestampCells_error _ _ _ h2
      intro hc; cases hc
    · rcases h3 : build_body_columns rows schema 0
        with e3 | cols <;> rw [h3] at h <;>
        simp only [Bind.bind, Except.bind] at h
      · cases h; exact build_body_columns_error _ _ _ _ h3
      · rcases h4 : record_batch_try_new (with_timestamp_fields schema)
            (.tsA lt :: .tsA pt :: cols) with e4 | b <;> rw [h4] at h
        · cases h; intro hc; cases hc
        · cases h

/-- `flush_batch` never fails with the converted `EmptyRows` error: the
empty buffer is short-circuited before the appender is called. -/
theorem flush_batch_not_empty_err :
    ∀ (schema : List AField) (rows : List DecodedMessage) (e : PipelineErr),
      flush_batch schema rows = .error e → e ≠ .convert .emptyRows := by
  intro schema rows e h
  unfold flush_batch at h
  by_cases he : rows.isEmpty = true
  · rw [if_pos he] at h; cases h
  · rw [if_neg he] at h
    rcases ht : try_arrow_value_rows_to_record_batch schema rows
      with e2 | b <;> rw [ht] at h
    · cases h
      have := try_arrow_error_not_empty schema rows e2
        (by simpa [List.isEmpty_iff] using he) ht
      intro hc
      injection hc with h3
      exact this h3
    · cases h

/-- The message loop never fails with the converted `EmptyRows` error,
whatever the buffer and accumulator state. -/
theorem pipeline_loop_not_empty_err :
    ∀ (topic : String) (cid : Nat) (dec : List Nat → Except String Value)
      (schema : List AField) (bs : Nat) (msgs : List PMessage)
      (rows : List DecodedMessage) (acc : List RecordBatch) (e : PipelineErr),
      pipeline_loop topic cid dec schema bs msgs rows acc = .error e →
      e ≠ .convert .emptyRows := by
  intro topic cid dec schema bs msgs
  induction msgs with
  | nil =>
    intro rows acc e h
    simp only [pipeline_loop] at h
    rcases hf : flush_batch schema rows with e2 | ob <;> rw [hf] at h
    · cases h; exact flush_batch_not_empty_err _ _ _ hf
    · rcases ob with _ | b <;> cases h
  | cons m rest ih =>
    intro rows acc e h
    simp only [pipeline_loop] at h
    by_cases hch : (m.channel_id != cid) = true
    · rw [if_pos hch] at h
      exact ih _ _ _ h
    · rw [if_neg hch] at h
      rcases hd : dec m.data with e2 | v <;> rw [hd] at h <;>
        dsimp only at h
      · cases h; intro hc; cases hc
      · by_cases hlen :
          (rows ++ [(⟨m.log_time, m.publish_time, v⟩ : DecodedMessage)]).length ≥ bs
        · rw [if_pos hlen] at h
          rcases hf : flush_batch schema
              (rows ++ [(⟨m.log_time, m.publish_time, v⟩ : DecodedMessage)])
            with e2 | ob <;> rw [hf] at h
          · cases h; exact flush_batch_not_empty_err _ _ _ hf
          · rcases ob with _ | b
            · exact ih _ _ _ h
            · exact ih _ _ _ h
        · rw [if_neg hlen] at h
          exact ih _ _ _ h

/-- Claim C8: the row appender called on an empty row slice fails with
`EmptyRows`; the pipeline never triggers this case: a flush with zero
buffered rows performs no appender call and no callback invocation
(`flush_batch` returns `Ok` with no batch), and no pipeline run over any
message stream can surface the `EmptyRows` conversion error. -/
theorem C8_empty_rows_guard :
    (∀ schema, try_arrow_value_rows_to_record_batch schema [] =
      .error .emptyRows) ∧
    (∀ schema, flush_batch schema [] = .ok none) ∧
    (∀ (topic : String) (cid : Nat) (dec : List Nat → Except String Value)
      (schema : List AField) (bs : Nat) (msgs : List PMessage),
      for_each_record_batch topic cid dec schema bs msgs ≠
        .error (.convert .emptyRows)) := by
  refine ⟨fun _ => rfl, fun _ => rfl, ?_⟩
  intro topic cid dec schema bs msgs hc
  exact pipeline_loop_not_empty_err topic cid dec schema bs msgs [] [] _ hc rfl

/-- Witness for C8 at concrete inputs: the appender rejects an empty slice
over body `[b: Utf8]`, the flush of an empty buffer invokes nothing, and a
one-message run cannot surface the `EmptyRows` conversion error. -/
theorem C8_empty_rows_guard_witness :
    try_arrow_value_rows_to_record_batch [.mk "b" .utf8 true] [] =
      .error .emptyRows ∧
    flush_batch [.mk "b" .utf8 true] [] = .ok none ∧
    for_each_record_batch "topic" 0 (fun _ => .ok (.strct [.string "x"]))
        [.mk "b" .utf8 true] 1 [⟨0, [1], 2, 3⟩] ≠
      .error (.convert .emptyRows) :=
  ⟨C8_empty_rows_guard.1 [.mk "b" .utf8 true],
   C8_empty_rows_guard.2.1 [.mk "b" .utf8 true],
   C8_empty_rows_guard.2.2 "topic" 0 (fun _ => .ok (.strct [.string "x"]))
     [.mk "b" .utf8 true] 1 [⟨0, [1], 2, 3⟩]⟩

/-- A leaf column is kept as-is by `collect_columns` under any policy:
pushed at its path with its type and nullability. -/
theorem collect_columns_leaf (f : AField) (path : String) (col : Arr)
    (sep : String) (p : FlattenPolicy) (out : Collector)
    (h : f.dt.isLeaf = true) :
    collect_columns f path col sep p out =
      .ok (out.push (.mk path f.dt f.nullable) col) := by
  rcases f with ⟨nm, dt, nb⟩
  cases dt <;>
    try (simp [collect_columns, CommonPostProcess.apply, Collector.keepCol,
      AField.dt, AField.nullable]; done)
  all_goals simp [ADT.isLeaf, AField.dt] at h

/-- The struct-child loop appends, for each (field, column) pair, the child
column renamed `{path}{sep}{child}`, when all children are leaves. -/
theorem collectStructChildren_leaves :
    ∀ (cfields : List AField) (children : List Arr) (path sep : String)
      (p : FlattenPolicy) (out : Collector),
      cfields.length = children.length →
      (∀ f ∈ cfields, f.dt.isLeaf = true) →
      collectStructChildren cfields children path sep p out =
        .ok { out with
          fields := out.fields ++ (cfields.zip children).map
            (fun pc => AField.mk (path ++ sep ++ pc.1.name) pc.1.dt pc.1.nullable),
          arrays := out.arrays ++ (cfields.zip children).map Prod.snd } := by
  intro cfields
  induction cfields with
  | nil =>
    intro children path sep p out hlen hleaf
    simp [collectStructChildren]
  | cons f frest ih =>
    intro children path sep p out hlen hleaf
    cases children with
    | nil => simp at hlen
    | cons c crest =>
      rcases f with ⟨fn, fdt, fnb⟩
      simp only [collectStructChildren]
      rw [collect_columns_leaf _ _ _ _ _ _
        (hleaf (.mk fn fdt fnb) (List.mem_cons_self _ _))]
      simp only [Bind.bind, Except.bind]
      rw [ih crest path sep p _ (by simpa using hlen)
        (fun g hg => hleaf g (List.mem_cons_of_mem _ hg))]
      simp [Collector.push, AField.name, AField.dt, AField.nullable,
        List.append_assoc]

/-- Claim C6 (amended): the `FlattenPolicy` of `flatten.rs` has exactly the
three components `list`, `array`, `map` — there is no struct policy — and
under every policy value a `Struct` column is unconditionally expanded
inline: its children are appended renamed `{parent}{sep}{child}` (with
the child type and nullability), the struct column itself is never kept,
and the dropped set is untouched. -/
theorem C6_struct_always_flattened :
    ∀ (p : FlattenPolicy) (sname path sep : String) (nb : Bool)
      (cfields sfields : List AField) (children : List Arr)
      (validity : List Bool) (out : Collector),
      cfields.length = children.length →
      (∀ f ∈ cfields, f.dt.isLeaf = true) →
      collect_columns (.mk sname (.strct cfields) nb) path
          (.structA sfields children validity) sep p out =
        .ok { out with
          fields := out.fields ++ (cfields.zip children).map
            (fun pc => AField.mk (path ++ sep ++ pc.1.name) pc.1.dt pc.1.nullable),
          arrays := out.arrays ++ (cfields.zip children).map Prod.snd } := by
  intro p sname path sep nb cfields sfields children validity out hlen hleaf
  have hsc := collectStructChildren_leaves cfields children path sep p out
    hlen hleaf
  simp only [collect_columns]
  rw [hsc]
  simp [Bind.bind, Except.bind, CommonPostProcess.apply]

/-- Counterexample to C6 as stated: even under `FlattenPolicy::for_parquet`
(every per-type policy set to `Keep`, the closest expressible analogue of a
`StructPolicy::Keep`), a `Struct` column does not pass through unchanged:
the whole batch is rebuilt with the renamed child column `s.a` and no
struct column — no policy value can keep a struct, since `FlattenPolicy`
has no struct component at all. -/
theorem C6_struct_policy_counterexample :
    flatten_record_batch
      ⟨[.mk "s" (.strct [.mk "a" .int32 true]) true],
       [.structA [.mk "a" .int32 true] [.int32A [some 7]] [true]]⟩
      none .for_parquet =
      .ok (⟨[.mk "s.a" .int32 true], [.int32A [some 7]]⟩, []) := by
  have h : collectAll [.mk "s" (.strct [.mk "a" .int32 true]) true]
      [.structA [.mk "a" .int32 true] [.int32A [some 7]] [true]]
      (String.singleton (Option.getD none (Char.ofNat 46))) .for_parquet
      ⟨[], [], []⟩ =
      .ok ⟨[.mk "s.a" .int32 true], [.int32A [some 7]], []⟩ := by
    simp [collectAll, collect_columns, collectStructChildren,
      CommonPostProcess.apply, Collector.keepCol, Collector.push, AField.dt,
      AField.name, AField.nullable, Bind.bind, Except.bind]
    rfl
  simp only [flatten_record_batch, Bind.bind, Except.bind, h]
  simp [dupFind, AField.name, record_batch_try_new, Arr.len]

/-- Witness for C6 at concrete inputs: the struct column `s` with single
leaf child `a` is expanded into `s.a` under the all-keep policy. -/
theorem C6_struct_always_flattened_witness :
    ([AField.mk "a" ADT.int32 true] : List AField).length =
      ([Arr.int32A [some 7]] : List Arr).length ∧
    collect_columns (.mk "s" (.strct [.mk "a" .int32 true]) true) "s"
        (.structA [.mk "a" .int32 true] [.int32A [some 7]] [true]) "."
        .for_parquet ⟨[], [], []⟩ =
      .ok ⟨[.mk "s.a" .int32 true], [.int32A [some 7]], []⟩ :=
  ⟨rfl, by
    have h := C6_struct_always_flattened .for_parquet "s" "s" "." true
      [.mk "a" .int32 true] [.mk "a" .int32 true] [.int32A [some 7]] [true]
      ⟨[], [], []⟩ rfl
      (by intro f hf; simp at hf; subst hf; rfl)
    simpa [AField.name, AField.dt, AField.nullable] using h⟩

/-- `mapM` over `Except` succeeds pointwise: if every element maps to `ok`,
the whole traversal is the `ok` of the pointwise map. -/
theorem exceptMapM_ok {α β ε : Type} (f : α → Except ε β) (g : α → β) :
    ∀ l : List α, (∀ a ∈ l, f a = .ok (g a)) → l.mapM f = .ok (l.map g) := by
  intro l
  induction l with
  | nil => intro _; rfl
  | cons a rest ih =>
    intro hall
    rw [List.mapM_cons, hall a (List.mem_cons_self _ _)]
    simp only [Bind.bind, Except.bind]
    rw [ih (fun b hb => hall b (List.mem_cons_of_mem _ hb))]
    rfl

/-- The `take` cell gather succeeds when every index is in bounds, copying
cells and turning null indices into null cells. -/
theorem takeCells_ok {α : Type} (cells : List (Option α)) :
    ∀ idx : List (Option Nat),
      (∀ j, some j ∈ idx → j < cells.length) →
      takeCells cells idx =
        .ok (idx.map fun oi => match oi with
          | Option.none => none
          | some j => cells.getD j none) := by
  intro idx hb
  unfold takeCells
  refine exceptMapM_ok _ _ idx ?_
  intro oi hoi
  cases oi with
  | none => rfl
  | some j =>
    have hj := hb j hoi
    rcases hq : cells.get? j with _ | c
    · rw [List.get?_eq_none] at hq
      omega
    · have hc : cells.getD j none = c := by
        rw [List.getD_eq_getElem?_getD, ← List.get?_eq_getElem?, hq]
        rfl
      simp only [hq, hc]

/-- Expansion by index over an `Int32` source: with all produced indices in
bounds, column `i` is named `{name}{sep}{i}` and holds, per row, the source
cell at the computed index (null for a null index). -/
theorem expand_by_index_int32 (cells : List (Option Int)) (n_rows n : Nat)
    (name sep : String) (ifn : Nat → Nat → Option Nat)
    (hb : ∀ row i j, row < n_rows → i < n → ifn row i = some j →
      j < cells.length) :
    expand_by_index (.int32A cells) n_rows n name sep ifn =
      .ok ((List.range n).map fun i =>
        (name ++ sep ++ toString i,
         Arr.int32A ((List.range n_rows).map fun row =>
           match ifn row i with
           | Option.none => none
           | some j => cells.getD j none))) := by
  unfold expand_by_index
  refine exceptMapM_ok _ _ _ ?_
  intro i hi
  rw [List.mem_range] at hi
  have hcells := takeCells_ok cells
    ((List.range n_rows).map fun row => ifn row i) (by
      intro j hjm
      rw [List.mem_map] at hjm
      obtain ⟨row, hrow, hifn⟩ := hjm
      rw [List.mem_range] at hrow
      exact hb row i j hrow hi hifn)
  dsimp only
  simp only [takeArr, hcells, Bind.bind, Except.bind, List.map_map]
  rfl

/-- The expanded-column loop with a leaf element type keeps every produced
column as-is, under its own name, with `nullable = true`. -/
theorem collectExpanded_leaf (idt : ADT) (hl : idt.isLeaf = true) :
    ∀ (pairs : List (String × Arr)) (sep : String) (p : FlattenPolicy)
      (out : Collector),
      collectExpanded idt pairs sep p out =
        .ok { out with
          fields := out.fields ++ pairs.map (fun pc => AField.mk pc.1 idt true),
          arrays := out.arrays ++ pairs.map Prod.snd } := by
  intro pairs
  induction pairs with
  | nil => intro sep p out; simp [collectExpanded]
  | cons pr rest ih =>
    intro sep p out
    rcases pr with ⟨nm, a⟩
    simp only [collectExpanded]
    rw [collect_columns_leaf _ _ _ _ _ _ (by simpa [AField.dt] using hl)]
    simp only [Bind.bind, Except.bind]
    rw [ih sep p _]
    simp [Collector.push, AField.dt, AField.nullable, List.append_assoc]

/-- Claim C7 (amended): under `ListPolicy::FlattenFixed(n)` a
`List<Int32>` column at path `p` whose offsets stay within the child cells
is replaced by exactly `n` columns named `{p}{sep}0 … {p}{sep}n-1`
(nullable), where the cell of column `i` at row `r` is the child cell at
`offset_r + i` when the row is valid and `i` is below the row length, and
null otherwise (short rows pad, long rows truncate, null rows are all
null); the list column itself is omitted and the dropped set is untouched
even for `n = 0`. -/
theorem C7_list_flatten_fixed :
    ∀ (n : Nat) (lname iname path sep : String) (nb inb : Bool)
      (cells : List (Option Int)) (offsets : List Nat) (validity : List Bool)
      (pa : ArrayPolicy) (pm : MapPolicy) (out : Collector),
      (∀ j, j < offsets.length → offsets.getD j 0 ≤ cells.length) →
      collect_columns (.mk lname (.list (.mk iname .int32 inb)) nb) path
          (.listA (.int32A cells) offsets validity) sep
          ⟨.flattenFixed n, pa, pm⟩ out =
        .ok { out with
          fields := out.fields ++ (List.range n).map
            (fun i => AField.mk (path ++ sep ++ toString i) .int32 true),
          arrays := out.arrays ++ (List.range n).map
            (fun i => Arr.int32A ((List.range (offsets.length - 1)).map
              fun row =>
                if validity.getD row true = false then none
                else
                  if i < offsets.getD (row + 1) 0 - offsets.getD row 0 then
                    cells.getD (offsets.getD row 0 + i) none
                  else none)) } := by
  intro n lname iname path sep nb inb cells offsets validity pa pm out hb
  have hexp : expand_list_fixed (.int32A cells) offsets validity path n sep =
      .ok ((List.range n).map fun i =>
        (path ++ sep ++ toString i,
         Arr.int32A ((List.range (offsets.length - 1)).map fun row =>
           if validity.getD row true = false then none
           else
             if i < offsets.getD (row + 1) 0 - offsets.getD row 0 then
               cells.getD (offsets.getD row 0 + i) none
             else none))) := by
    unfold expand_list_fixed
    rw [expand_by_index_int32]
    · refine congrArg Except.ok (List.map_congr_left ?_)
      intro i hi
      refine congrArg _ (congrArg Arr.int32A (List.map_congr_left ?_))
      intro row hrow
      dsimp only
      by_cases hv : validity.getD row true = false
      · rw [if_pos hv, if_pos hv]
      · rw [if_neg hv, if_neg hv]
        by_cases hlt : i < offsets.getD (row + 1) 0 - offsets.getD row 0
        · rw [if_pos hlt, if_pos hlt]
        · rw [if_neg hlt, if_neg hlt]
    · intro row i j hrow hi hifn
      dsimp only at hifn
      by_cases hv : validity.getD row true = false
      · rw [if_pos hv] at hifn; cases hifn
      · rw [if_neg hv] at hifn
        by_cases hlt : i < offsets.getD (row + 1) 0 - offsets.getD row 0
        · rw [if_pos hlt] at hifn
          injection hifn with hj
          have hstop : offsets.getD (row + 1) 0 ≤ cells.length := by
            rcases Nat.eq_zero_or_pos offsets.length with hz | hpos
            · have hnone : offsets.getD (row + 1) 0 = 0 := by
                rw [List.getD_eq_getElem?_getD, List.getElem?_eq_none (by omega)]
                rfl
              omega
            · exact hb (row + 1) (by omega)
          omega
        · rw [if_neg hlt] at hifn; cases hifn
  simp only [collect_columns]
  rw [hexp]
  simp only [Bind.bind, Except.bind]
  rw [collectExpanded_leaf .int32 rfl]
  simp [CommonPostProcess.apply, CommonPostProcess.from_list_policy,
    List.map_map]

/-- Counterexample to C7 as stated: a `List<Struct{x,y}>` column under
`FlattenFixed(2)` is not replaced by exactly 2 columns `lst.0`, `lst.1`:
each positional column is itself a struct and is flattened further,
yielding the 4 columns `lst.0.x`, `lst.0.y`, `lst.1.x`, `lst.1.y`. -/
theorem C7_list_flatten_fixed_counterexample :
    collect_columns
      (.mk "lst" (.list (.mk "item"
        (.strct [.mk "x" .int32 true, .mk "y" .int32 true]) true)) true)
      "lst"
      (.listA (.structA [.mk "x" .int32 true, .mk "y" .int32 true]
         [.int32A [some 1, some 2, some 3, some 4],
          .int32A [some 10, some 20, some 30, some 40]]
         [true, true, true, true]) [0, 2, 4] [true, true])
      "." ⟨.flattenFixed 2, .keep, .keep⟩ ⟨[], [], []⟩ =
      .ok ⟨[.mk "lst.0.x" .int32 true, .mk "lst.0.y" .int32 true,
            .mk "lst.1.x" .int32 true, .mk "lst.1.y" .int32 true],
           [.int32A [some 1, some 3], .int32A [some 10, some 30],
            .int32A [some 2, some 4], .int32A [some 20, some 40]], []⟩ := by
  have hexp : expand_list_fixed
      (.structA [.mk "x" .int32 true, .mk "y" .int32 true]
        [.int32A [some 1, some 2, some 3, some 4],
         .int32A [some 10, some 20, some 30, some 40]]
        [true, true, true, true]) [0, 2, 4] [true, true] "lst" 2 "." =
      .ok [("lst.0", .structA [.mk "x" .int32 true, .mk "y" .int32 true]
              [.int32A [some 1, some 3], .int32A [some 10, some 30]]
              [true, true]),
           ("lst.1", .structA [.mk "x" .int32 true, .mk "y" .int32 true]
              [.int32A [some 2, some 4], .int32A [some 20, some 40]]
              [true, true])] := rfl
  have hs0 := collectStructChildren_leaves
    [.mk "x" .int32 true, .mk "y" .int32 true]
    [.int32A [some 1, some 3], .int32A [some 10, some 30]] "lst.0" "."
    ⟨.flattenFixed 2, .keep, .keep⟩ ⟨[], [], []⟩ rfl (by decide)
  have hs1 := collectStructChildren_leaves
    [.mk "x" .int32 true, .mk "y" .int32 true]
    [.int32A [some 2, some 4], .int32A [some 20, some 40]] "lst.1" "."
    ⟨.flattenFixed 2, .keep, .keep⟩
    ⟨[.mk "lst.0.x" .int32 true, .mk "lst.0.y" .int32 true],
     [.int32A [some 1, some 3], .int32A [some 10, some 30]], []⟩ rfl (by decide)
  have h0 : collect_columns
      (.mk "lst.0" (.strct [.mk "x" .int32 true, .mk "y" .int32 true]) true)
      "lst.0"
      (.structA [.mk "x" .int32 true, .mk "y" .int32 true]
        [.int32A [some 1, some 3], .int32A [some 10, some 30]] [true, true])
      "." ⟨.flattenFixed 2, .keep, .keep⟩ ⟨[], [], []⟩ =
      .ok ⟨[.mk "lst.0.x" .int32 true, .mk "lst.0.y" .int32 true],
           [.int32A [some 1, some 3], .int32A [some 10, some 30]], []⟩ := by
    simp only [collect_columns, hs0, Bind.bind, Except.bind,
      CommonPostProcess.apply]
    rfl
  have h1 : collect_columns
      (.mk "lst.1" (.strct [.mk "x" .int32 true, .mk "y" .int32 true]) true)
      "lst.1"
      (.structA [.mk "x" .int32 true, .mk "y" .int32 true]
        [.int32A [some 2, some 4], .int32A [some 20, some 40]] [true, true])
      "." ⟨.flattenFixed 2, .keep, .keep⟩
      ⟨[.mk "lst.0.x" .int32 true, .mk "lst.0.y" .int32 true],
       [.int32A [some 1, some 3], .int32A [some 10, some 30]], []⟩ =
      .ok ⟨[.mk "lst.0.x" .int32 true, .mk "lst.0.y" .int32 true,
            .mk "lst.1.x" .int32 true, .mk "lst.1.y" .int32 true],
           [.int32A [some 1, some 3], .int32A [some 10, some 30],
            .int32A [some 2, some 4], .int32A [some 20, some 40]], []⟩ := by
    simp only [collect_columns, hs1, Bind.bind, Except.bind,
      CommonPostProcess.apply]
    rfl
  have hce : collectExpanded
      (.strct [.mk "x" .int32 true, .mk "y" .int32 true])
      [("lst.0", .structA [.mk "x" .int32 true, .mk "y" .int32 true]
          [.int32A [some 1, some 3], .int32A [some 10, some 30]] [true, true]),
       ("lst.1", .structA [.mk "x" .int32 true, .mk "y" .int32 true]
          [.int32A [some 2, some 4], .int32A [some 20, some 40]] [true, true])]
      "." ⟨.flattenFixed 2, .keep, .keep⟩ ⟨[], [], []⟩ =
      .ok ⟨[.mk "lst.0.x" .int32 true, .mk "lst.0.y" .int32 true,
            .mk "lst.1.x" .int32 true, .mk "lst.1.y" .int32 true],
           [.int32A [some 1, some 3], .int32A [some 10, some 30],
            .int32A [some 2, some 4], .int32A [some 20, some 40]], []⟩ := by
    simp only [collectExpanded, h0, h1, Bind.bind, Except.bind]
  simp only [collect_columns, hexp, hce, Bind.bind, Except.bind,
    CommonPostProcess.apply, CommonPostProcess.from_list_policy]

/-- Witness for C7 at the §8 example: `lst: List<Int32>` with rows `[1,2]`
and `[3]` under `FlattenFixed(2)` yields `lst.0 = [1, 3]` and
`lst.1 = [2, null]`. -/
theorem C7_list_flatten_fixed_witness :
    (∀ j, j < ([0, 2, 3] : List Nat).length →
      ([0, 2, 3] : List Nat).getD j 0 ≤
        ([some 1, some 2, some 3] : List (Option Int)).length) ∧
    collect_columns (.mk "lst" (.list (.mk "item" .int32 true)) true) "lst"
        (.listA (.int32A [some 1, some 2, some 3]) [0, 2, 3] [true, true]) "."
        ⟨.flattenFixed 2, .keep, .keep⟩ ⟨[], [], []⟩ =
      .ok ⟨[.mk "lst.0" .int32 true, .mk "lst.1" .int32 true],
           [.int32A [some 1, some 3], .int32A [some 2, none]], []⟩ :=
  ⟨by decide, by
    rw [C7_list_flatten_fixed 2 "lst" "item" "lst" "." true true
      [some 1, some 2, some 3] [0, 2, 3] [true, true] .keep .keep
      ⟨[], [], []⟩ (by decide)]
    rfl⟩

end M2A
